import Mathlib

/-!
# MuonIdEmbedder: embedding of `AnalysisTools/plugins/PATMuonIDEmbedder.cc`

A shallow embedding of the muon identification embedder and the proofs of
its specification.

Modelling conventions.

* Real quantities (`float`/`double` in the source) are exact rationals; rounding
  and overflow are not modelled.  The one place where the source can leave the
  finite numbers, a division by `pt() == 0`, is modelled by `Fp.div`, which
  returns the IEEE-754 special values and reads the sign of the zero.
* Comparisons of doubles are exact.  The literal `0.3` of line 154 is its
  exact double value `double_0_3`, which the double `dxy` can be equal to.
* A track reference (`reco::TrackRef`) may be null: it is an `Option Track`, and
  `operator->` on a null reference ends the evaluation with `Fault.nullRef`.
* The C++ `&&` evaluates its right operand only when the left one is true:
  `andThen`.
* `*vertices->begin()` on an empty collection is undefined behaviour in the
  source; the embedding gives it the outcome `Fault.undefinedBehaviour`, which
  is not an error the source raises.
* Quantities computed by the framework from a muon (base identification
  flags, impact parameters, segment compatibility) are fields of the muon.  The
  framework's invariants that tie the flags to the presence of the tracks are
  the predicate `Muon.WellFormed`.
* The output record is the input muon together with the entries added by
  `addUserInt` and `addUserFloat`, in the order of the calls.
-/

namespace MuonIdEmbedder

/-! ## Data model -/

/-- Ways an evaluation can end without a value. -/
inductive Fault where
  /-- `operator->` on a null `edm::Ref` (the framework throws). -/
  | nullRef
  /-- `*vertices->begin()` on an empty collection: undefined behaviour, no
  exception is raised by the source. -/
  | undefinedBehaviour
  deriving DecidableEq, Repr

/-- Result of a floating-point division: a finite quotient or one of the
IEEE-754 special values. -/
inductive Fp where
  | finite (q : ℚ)
  | posInf
  | negInf
  | nan
  deriving DecidableEq

/-- IEEE-754 division of two finite numbers.  `negZero` is the sign bit of a
zero divisor (`true` for `-0.0`); it is not read when `b ≠ 0`.  A zero
numerator over a zero divisor is NaN; otherwise the quotient by a zero is the
infinity whose sign is the product of the two signs. -/
def Fp.div (a b : ℚ) (negZero : Bool) : Fp :=
  if b = 0 then
    (if a = 0 then Fp.nan
     else if xor (decide (0 < a)) negZero then Fp.posInf else Fp.negInf)
  else Fp.finite (a / b)

/-- IEEE-754 comparison `x < t` against a finite threshold. -/
def Fp.lt (x : Fp) (t : ℚ) : Bool :=
  match x with
  | Fp.finite q => decide (q < t)
  | Fp.posInf => false
  | Fp.negInf => true
  | Fp.nan => false

/-- Position of a vertex (`math::XYZPoint`). -/
structure Point where
  x : ℚ
  y : ℚ
  z : ℚ
  deriving DecidableEq

/-- Reconstructed interaction point (`reco::Vertex`). -/
structure Vertex where
  position : Point
  deriving DecidableEq

/-- The part of a `reco::Track` the embedder reads. -/
structure Track where
  normalizedChi2 : ℚ
  validFraction : ℚ
  dxy : Point → ℚ
  dz : Point → ℚ
  trackerLayersWithMeasurement : Int
  pixelLayersWithMeasurement : Int
  qualityHighPurity : Bool

/-- Combined-fit quality (`reco::MuonQuality`). -/
structure MuonQuality where
  chi2LocalPosition : ℚ
  trkKink : ℚ

/-- Particle-flow isolation sums in a cone (`reco::MuonPFIsolation`). -/
structure MuonPFIsolation where
  sumChargedHadronPt : ℚ
  sumNeutralHadronEt : ℚ
  sumPhotonEt : ℚ
  sumPUPt : ℚ

/-- The part of a `pat::Muon` the embedder reads.  `isLooseMuon`,
`isGoodMuonTMOneStationTight` and `segmentCompatibility` stand for
`muon::isLooseMuon(mu)`, `muon::isGoodMuon(mu, muon::TMOneStationTight)` and
`muon::segmentCompatibility(mu)`.  The rational `pt` carries no sign of zero, so
the sign bit of a zero `pt()` is a field of its own. -/
structure Muon where
  pt : ℚ
  /-- The sign bit of `pt()` when it is a zero: `true` for `-0.0`. -/
  ptIsNegativeZero : Bool := false
  isGlobalMuon : Bool
  globalTrack : Option Track
  innerTrack : Option Track
  combinedQuality : MuonQuality
  pfIsolationR04 : MuonPFIsolation
  trackIso : ℚ
  segmentCompatibility : ℚ
  isLooseMuon : Bool
  isGoodMuonTMOneStationTight : Bool
  isTightMuon : Vertex → Bool
  isSoftMuon : Vertex → Bool
  isHighPtMuon : Vertex → Bool

/-- Modelled from the spec: the user-data store of the output `pat::Muon`
(`PATObject::addUserInt` / `addUserFloat` are framework code).  The record is
the input candidate, unchanged, plus the named entries in insertion order. -/
structure AugmentedMuon where
  muon : Muon
  userInts : List (String × Int)
  userFloats : List (String × ℚ)

/-- `pat::Muon newObj = obj;` : the copy that starts the output record. -/
def AugmentedMuon.copy (obj : Muon) : AugmentedMuon :=
  { muon := obj, userInts := [], userFloats := [] }

/-- `newObj.addUserInt(label, value)`. -/
def AugmentedMuon.addUserInt (m : AugmentedMuon) (label : String) (data : Int) :
    AugmentedMuon :=
  { m with userInts := m.userInts ++ [(label, data)] }

/-- `newObj.addUserFloat(label, value)`. -/
def AugmentedMuon.addUserFloat (m : AugmentedMuon) (label : String) (data : ℚ) :
    AugmentedMuon :=
  { m with userFloats := m.userFloats ++ [(label, data)] }

/-- `newObj.userInt(label)`, `none` when the label is absent. -/
def AugmentedMuon.userInt (m : AugmentedMuon) (label : String) : Option Int :=
  m.userInts.lookup label

/-- `newObj.userFloat(label)`, `none` when the label is absent. -/
def AugmentedMuon.userFloat (m : AugmentedMuon) (label : String) : Option ℚ :=
  m.userFloats.lookup label

/-- Conversion `bool → int` at an `addUserInt` call. -/
def boolToInt (b : Bool) : Int := if b then 1 else 0

/-- `ref->...` : the track behind a reference, or the framework's exception. -/
def deref (r : Option Track) : Except Fault Track :=
  match r with
  | some t => Except.ok t
  | none => Except.error Fault.nullRef

/-- The C++ `a && b`: `b` is evaluated only when `a` is true. -/
def andThen (a b : Except Fault Bool) : Except Fault Bool :=
  match a with
  | Except.ok true => b
  | Except.ok false => Except.ok false
  | Except.error e => Except.error e

/-! ## The identification predicates (lines 94-157) -/

/-- `MuonIdEmbedder::isMediumMuonICHEP` (lines 94-104). -/
def isMediumMuonICHEP (recoMu : Muon) : Except Fault Bool := do
  let goodGlob ←
    andThen (andThen (andThen
      (pure recoMu.isGlobalMuon)
      (do let t ← deref recoMu.globalTrack; pure (decide (t.normalizedChi2 < 3))))
      (pure (decide (recoMu.combinedQuality.chi2LocalPosition < 12))))
      (pure (decide (recoMu.combinedQuality.trkKink < 20)))
  let isMedium ←
    andThen (andThen
      (pure recoMu.isLooseMuon)
      (do let t ← deref recoMu.innerTrack; pure (decide (t.validFraction > 0.49))))
      (pure (decide (recoMu.segmentCompatibility > (if goodGlob then 0.303 else 0.451))))
  pure isMedium

/-- `MuonIdEmbedder::isWZLooseMuonNoIso` (lines 116-122). -/
def isWZLooseMuonNoIso (patMu : Muon) (pv : Vertex) : Except Fault Bool :=
  andThen (andThen (andThen
    (isMediumMuonICHEP patMu)
    (do let t ← deref patMu.innerTrack; pure (decide (abs (t.dxy pv.position) < 0.02))))
    (do let t ← deref patMu.innerTrack; pure (decide (abs (t.dz pv.position) < 0.1))))
    (pure (Fp.lt (Fp.div patMu.trackIso patMu.pt patMu.ptIsNegativeZero) 0.4))

/-- `MuonIdEmbedder::isWZLooseMuon` (lines 106-115). -/
def isWZLooseMuon (patMu : Muon) (pv : Vertex) : Except Fault Bool :=
  let pfIsoDB04 := patMu.pfIsolationR04
  let muIso := Fp.div (pfIsoDB04.sumChargedHadronPt
                        + max 0 (pfIsoDB04.sumNeutralHadronEt
                            + pfIsoDB04.sumPhotonEt
                            - 0.5 * pfIsoDB04.sumPUPt)
                  ) patMu.pt patMu.ptIsNegativeZero
  andThen (isWZLooseMuonNoIso patMu pv) (pure (Fp.lt muIso 0.4))

/-- `MuonIdEmbedder::isWZTightMuonNoIso` (lines 133-138). -/
def isWZTightMuonNoIso (patMu : Muon) (pv : Vertex) : Except Fault Bool :=
  andThen (andThen
    (pure (patMu.isTightMuon pv))
    (do let t ← deref patMu.innerTrack; pure (decide (abs (t.dxy pv.position) < 0.02))))
    (do let t ← deref patMu.innerTrack; pure (decide (abs (t.dz pv.position) < 0.1)))

/-- `MuonIdEmbedder::isWZTightMuon` (lines 123-132). -/
def isWZTightMuon (patMu : Muon) (pv : Vertex) : Except Fault Bool :=
  let pfIsoDB04 := patMu.pfIsolationR04
  let muIso := Fp.div (pfIsoDB04.sumChargedHadronPt
                        + max 0 (pfIsoDB04.sumNeutralHadronEt
                            + pfIsoDB04.sumPhotonEt
                            - 0.5 * pfIsoDB04.sumPUPt)
                  ) patMu.pt patMu.ptIsNegativeZero
  andThen (isWZTightMuonNoIso patMu pv) (pure (Fp.lt muIso 0.15))

/-- `MuonIdEmbedder::isWZMediumMuon` (lines 139-148). -/
def isWZMediumMuon (patMu : Muon) (pv : Vertex) : Except Fault Bool :=
  let pfIsoDB04 := patMu.pfIsolationR04
  let muIso := Fp.div (pfIsoDB04.sumChargedHadronPt
                        + max 0 (pfIsoDB04.sumNeutralHadronEt
                            + pfIsoDB04.sumPhotonEt
                            - 0.5 * pfIsoDB04.sumPUPt)
                  ) patMu.pt patMu.ptIsNegativeZero
  andThen (isWZTightMuonNoIso patMu pv) (pure (Fp.lt muIso 0.40))

/-- The `double` literal `0.3` of line 154: the double nearest to 3/10,
`0x1.3333333333333p-2 = 5404319552844595 / 2^54`, which lies below 3/10.  The
impact parameter `dxy` is a `double` and can be equal to it. -/
def double_0_3 : ℚ := 5404319552844595 / 18014398509481984

/-- `MuonIdEmbedder::isSoftMuonICHEP` (lines 149-157).  The literal `20.` is the
number 20. -/
def isSoftMuonICHEP (recoMu : Muon) (pv : Vertex) : Except Fault Bool := do
  let soft ←
    andThen (andThen (andThen (andThen
      (pure recoMu.isGoodMuonTMOneStationTight)
      (do let t ← deref recoMu.innerTrack; pure (decide (t.trackerLayersWithMeasurement > 5))))
      (do let t ← deref recoMu.innerTrack; pure (decide (t.pixelLayersWithMeasurement > 0))))
      (do let t ← deref recoMu.innerTrack; pure (decide (abs (t.dxy pv.position) < double_0_3))))
      (do let t ← deref recoMu.innerTrack; pure (decide (abs (t.dz pv.position) < 20)))
  pure soft

/-! ## The per-event operation (lines 52-90) -/

/-- Body of the loop of `MuonIdEmbedder::produce` (lines 65-84): the record
built for one candidate `obj` against the vertex `pv`. -/
def embedIds (obj : Muon) (pv : Vertex) : Except Fault AugmentedMuon := do
  let newObj := AugmentedMuon.copy obj
  let newObj := newObj.addUserInt "isTightMuon" (boolToInt (obj.isTightMuon pv))
  let newObj := newObj.addUserInt "isMediumMuonICHEP" (boolToInt (← isMediumMuonICHEP obj))
  let newObj := newObj.addUserInt "isWZMediumMuon" (boolToInt (← isWZMediumMuon obj pv))
  let newObj := newObj.addUserInt "isWZTightMuon" (boolToInt (← isWZTightMuon obj pv))
  let newObj := newObj.addUserInt "isWZTightMuonNoIso" (boolToInt (← isWZTightMuonNoIso obj pv))
  let newObj := newObj.addUserInt "isWZLooseMuon" (boolToInt (← isWZLooseMuon obj pv))
  let newObj := newObj.addUserInt "isWZLooseMuonNoIso" (boolToInt (← isWZLooseMuonNoIso obj pv))
  let newObj := newObj.addUserInt "isSoftMuon" (boolToInt (obj.isSoftMuon pv))
  let newObj := newObj.addUserInt "isSoftMuonICHEP" (boolToInt (← isSoftMuonICHEP obj pv))
  let newObj := newObj.addUserInt "isHighPtMuon" (boolToInt (obj.isHighPtMuon pv))
  let newObj := newObj.addUserFloat "segmentCompatibility" obj.segmentCompatibility
  let newObj := newObj.addUserInt "isGoodMuon" (boolToInt obj.isGoodMuonTMOneStationTight)
  let highPurity : Int :=
    match obj.innerTrack with
    | some t => boolToInt t.qualityHighPurity
    | none => 0
  let newObj := newObj.addUserInt "highPurityTrack" highPurity
  pure newObj

/-- The loop of `produce` (lines 64-87): candidates are visited in order and
each record is pushed to the back of `out`. -/
def produceLoop (pv : Vertex) : List Muon → List AugmentedMuon →
    Except Fault (List AugmentedMuon)
  | [], out => Except.ok out
  | obj :: rest, out => do
    let newObj ← embedIds obj pv
    produceLoop pv rest (out ++ [newObj])

/-- `MuonIdEmbedder::produce` (lines 52-90): `collection` and `vertices` are the
two collections read from the event, the value is the collection put into the
event. -/
def produce (collection : List Muon) (vertices : List Vertex) :
    Except Fault (List AugmentedMuon) :=
  match vertices with
  | [] => Except.error Fault.undefinedBehaviour
  | pv :: _ => produceLoop pv collection []

/-! ## Definitions used to state the properties -/

/-- The value `muIso` of lines 109-113, 126-130 and 142-146 (the three
computations are the same expression). -/
def muIso (patMu : Muon) : Fp :=
  let pfIsoDB04 := patMu.pfIsolationR04
  Fp.div (pfIsoDB04.sumChargedHadronPt
            + max 0 (pfIsoDB04.sumNeutralHadronEt
                + pfIsoDB04.sumPhotonEt
                - 0.5 * pfIsoDB04.sumPUPt)
          ) patMu.pt patMu.ptIsNegativeZero

/-- The common shape of `isWZLooseMuon`, `isWZTightMuon` and `isWZMediumMuon`,
`return noIso(patMu, pv) && muIso < threshold;`, with the threshold as a
parameter. -/
def isoFlagAt (noIso : Muon → Vertex → Except Fault Bool) (threshold : ℚ)
    (patMu : Muon) (pv : Vertex) : Except Fault Bool :=
  andThen (noIso patMu pv) (pure (Fp.lt (muIso patMu) threshold))

/-- The record the loop body builds from the values of the seven predicates. -/
def recordOf (obj : Muon) (pv : Vertex) (bM bWM bWT bTN bWL bLN bS : Bool) : AugmentedMuon :=
  { muon := obj,
    userInts :=
      [("isTightMuon", boolToInt (obj.isTightMuon pv)),
       ("isMediumMuonICHEP", boolToInt bM),
       ("isWZMediumMuon", boolToInt bWM),
       ("isWZTightMuon", boolToInt bWT),
       ("isWZTightMuonNoIso", boolToInt bTN),
       ("isWZLooseMuon", boolToInt bWL),
       ("isWZLooseMuonNoIso", boolToInt bLN),
       ("isSoftMuon", boolToInt (obj.isSoftMuon pv)),
       ("isSoftMuonICHEP", boolToInt bS),
       ("isHighPtMuon", boolToInt (obj.isHighPtMuon pv)),
       ("isGoodMuon", boolToInt obj.isGoodMuonTMOneStationTight),
       ("highPurityTrack",
          match obj.innerTrack with
          | some t => boolToInt t.qualityHighPurity
          | none => 0)],
    userFloats := [("segmentCompatibility", obj.segmentCompatibility)] }

namespace Spec

/-- The spec's `goodGlob` (section 4.1):
`isGlobalMuon ∧ chi2NormalizedGlobal<3 ∧ chi2LocalPosition<12 ∧ trkKink<20`. -/
def goodGlob (isGlobalMuon : Bool) (chi2NormalizedGlobal chi2LocalPosition trkKink : ℚ) :
    Bool :=
  isGlobalMuon && decide (chi2NormalizedGlobal < 3) && decide (chi2LocalPosition < 12)
    && decide (trkKink < 20)

/-- The spec's `isMediumICHEP` (section 4.1): `isLooseMuonBase ∧ validFraction>0.49 ∧
segmentCompatibility > (goodGlob ? 0.303 : 0.451)`. -/
def isMediumICHEP (isLooseMuonBase isGlobalMuon : Bool)
    (chi2NormalizedGlobal chi2LocalPosition trkKink validFraction segmentCompatibility : ℚ) :
    Bool :=
  isLooseMuonBase && decide (validFraction > 0.49)
    && decide (segmentCompatibility >
        (if goodGlob isGlobalMuon chi2NormalizedGlobal chi2LocalPosition trkKink = true
          then 0.303 else 0.451))

/-- The spec's `pfIsolationRatio04` (section 4.1), over exact arithmetic:
`(sumChargedHadronPt + max(0, sumNeutralHadronEt + sumPhotonEt − 0.5·sumPUPt)) / pt`. -/
def pfIsolationRatio04 (sumChargedHadronPt sumNeutralHadronEt sumPhotonEt sumPUPt pt : ℚ) :
    ℚ :=
  (sumChargedHadronPt + max 0 (sumNeutralHadronEt + sumPhotonEt - 0.5 * sumPUPt)) / pt

/-- The spec's ratio `R` of a candidate. -/
def ratioOf (c : Muon) : ℚ :=
  pfIsolationRatio04 c.pfIsolationR04.sumChargedHadronPt c.pfIsolationR04.sumNeutralHadronEt
    c.pfIsolationR04.sumPhotonEt c.pfIsolationR04.sumPUPt c.pt

end Spec

/-! ## Concrete inputs -/

/-- A track that passes every cut of the embedder at the origin. -/
def sampleTrack : Track :=
  { normalizedChi2 := 2, validFraction := 0.6,
    dxy := fun p => 0.01 + p.x, dz := fun p => 0.05 + p.z,
    trackerLayersWithMeasurement := 8, pixelLayersWithMeasurement := 2,
    qualityHighPurity := true }

/-- A well-measured, isolated global muon with `pt = 50`: the candidate of the
spec's scenarios 1 and 3. -/
def sampleMuon : Muon :=
  { pt := 50, isGlobalMuon := true,
    globalTrack := some sampleTrack, innerTrack := some sampleTrack,
    combinedQuality := { chi2LocalPosition := 5, trkKink := 10 },
    pfIsolationR04 :=
      { sumChargedHadronPt := 2, sumNeutralHadronEt := 3, sumPhotonEt := 1, sumPUPt := 4 },
    trackIso := 1, segmentCompatibility := 0.5,
    isLooseMuon := true, isGoodMuonTMOneStationTight := true,
    isTightMuon := fun _ => true, isSoftMuon := fun _ => true,
    isHighPtMuon := fun _ => false }

/-- The candidate of the spec's scenario 2: `sampleMuon` with
`segmentCompatibility = 0.2`. -/
def lowSegmentMuon : Muon := { sampleMuon with segmentCompatibility := 0.2 }

/-- The `sampleMuon` with a negative transverse momentum. -/
def negativePtMuon : Muon := { sampleMuon with pt := -1 }

/-- The `sampleMuon` with the transverse momentum `+0.0`. -/
def zeroPtMuon : Muon := { sampleMuon with pt := 0 }

/-- The `sampleMuon` with the transverse momentum `-0.0`. -/
def negativeZeroPtMuon : Muon := { sampleMuon with pt := 0, ptIsNegativeZero := true }

/-- A candidate without tracks and with no base flag set. -/
def standaloneMuon : Muon :=
  { sampleMuon with
    isGlobalMuon := false, globalTrack := none, innerTrack := none,
    isLooseMuon := false, isGoodMuonTMOneStationTight := false,
    isTightMuon := fun _ => false }

/-- A track whose transverse impact parameter is the double `0.3`. -/
def softBoundaryTrack : Track := { sampleTrack with dxy := fun _ => double_0_3 }

/-- The `sampleMuon` on the track `softBoundaryTrack`. -/
def softBoundaryMuon : Muon := { sampleMuon with innerTrack := some softBoundaryTrack }

/-- The vertex at the origin. -/
def origin : Vertex := { position := { x := 0, y := 0, z := 0 } }

/-- A second vertex, away from the origin. -/
def displaced : Vertex := { position := { x := 1, y := 2, z := 3 } }

/-! ## Further definitions used to state the properties -/

namespace Spec

/-- The spec's `isSoftICHEP` (section 4.1): `isGoodMuonOneStationTight ∧
trackerLayersWithMeasurement>5 ∧ pixelLayersWithMeasurement>0 ∧ |dxy(v)|<0.3 ∧
|dz(v)|<20.0`.  Section 4.1 gives its thresholds "standard IEEE double/float
comparison semantics", to be matched "bit-for-bit in value": `0.3` is the double
`double_0_3`, and `20.0` is the number 20. -/
def isSoftICHEP (isGoodMuonOneStationTight : Bool)
    (trackerLayersWithMeasurement pixelLayersWithMeasurement : Int) (dxy dz : ℚ) : Bool :=
  isGoodMuonOneStationTight && decide (trackerLayersWithMeasurement > 5)
    && decide (pixelLayersWithMeasurement > 0) && decide (abs dxy < double_0_3)
    && decide (abs dz < 20.0)

/-- The spec's `nearVertexTight` (section 4.1): `|dxy(v)|<0.02 ∧ |dz(v)|<0.1`. -/
def nearVertexTight (dxy dz : ℚ) : Bool :=
  decide (abs dxy < 0.02) && decide (abs dz < 0.1)

/-- The spec's `trackIsoRatio` (section 4.1), over exact arithmetic:
`trackIso / pt`. -/
def trackIsoRatio (trackIso pt : ℚ) : ℚ := trackIso / pt

end Spec

/-- The invariants of a candidate on which the source relies where it
dereferences a track behind a flag.  `muon::isLooseMuon`, `isTightMuon` and
`muon::isGoodMuon(.., TMOneStationTight)` are framework code that selects tracker
or global muons only, and those are built on an inner track; the global-muon
bit is set together with the global track. -/
def Muon.WellFormed (c : Muon) (pv : Vertex) : Prop :=
  (c.isLooseMuon = true → c.innerTrack.isSome = true) ∧
  (c.isTightMuon pv = true → c.innerTrack.isSome = true) ∧
  (c.isGoodMuonTMOneStationTight = true → c.innerTrack.isSome = true) ∧
  (c.isGlobalMuon = true → c.globalTrack.isSome = true)

instance (c : Muon) (pv : Vertex) : Decidable (Muon.WellFormed c pv) := by
  unfold Muon.WellFormed
  infer_instance

/-- The candidate `c` with another inner-track reference. -/
def withInnerTrack (c : Muon) (track : Option Track) : Muon :=
  { c with innerTrack := track }

/-- The candidate `c` with another global-track reference. -/
def withGlobalTrack (c : Muon) (track : Option Track) : Muon :=
  { c with globalTrack := track }

/-- The candidate `c` with other global-fit inputs: the global-muon bit, the
global track and the combined quality. -/
def withGlobalFit (c : Muon) (isGlobalMuon : Bool) (track : Option Track)
    (quality : MuonQuality) : Muon :=
  { c with isGlobalMuon := isGlobalMuon, globalTrack := track, combinedQuality := quality }

/-- The candidate `c` with another pile-up sum `sumPUPt`. -/
def withSumPUPt (c : Muon) (sumPUPt : ℚ) : Muon :=
  { c with pfIsolationR04 := { c.pfIsolationR04 with sumPUPt := sumPUPt } }

/-- The `sampleMuon` without the base tight flag. -/
def notTightMuon : Muon := { sampleMuon with isTightMuon := fun _ => false }

/-- The names of the integer entries `produce` adds, in the order of the calls. -/
def userIntKeys : List String :=
  ["isTightMuon", "isMediumMuonICHEP", "isWZMediumMuon", "isWZTightMuon",
   "isWZTightMuonNoIso", "isWZLooseMuon", "isWZLooseMuonNoIso", "isSoftMuon",
   "isSoftMuonICHEP", "isHighPtMuon", "isGoodMuon", "highPurityTrack"]

/-- The name of the real entry `produce` adds. -/
def userFloatKeys : List String := ["segmentCompatibility"]

/-! ## Evaluation lemmas -/

@[simp] theorem andThen_ok_true (b : Except Fault Bool) :
    andThen (Except.ok true) b = b := rfl

@[simp] theorem andThen_ok_false (b : Except Fault Bool) :
    andThen (Except.ok false) b = Except.ok false := rfl

@[simp] theorem andThen_error (e : Fault) (b : Except Fault Bool) :
    andThen (Except.error e) b = Except.error e := rfl

@[simp] theorem pure_eq_ok {α : Type} (a : α) : (pure a : Except Fault α) = Except.ok a := rfl

@[simp] theorem ok_bind {α β : Type} (a : α) (f : α → Except Fault β) :
    (Except.ok a >>= f) = f a := rfl

@[simp] theorem error_bind {α β : Type} (e : Fault) (f : α → Except Fault β) :
    ((Except.error e : Except Fault α) >>= f) = Except.error e := rfl

@[simp] theorem map_ok {α β : Type} (f : α → β) (a : α) :
    f <$> (Except.ok a : Except Fault α) = Except.ok (f a) := rfl

@[simp] theorem map_error {α β : Type} (f : α → β) (e : Fault) :
    f <$> (Except.error e : Except Fault α) = Except.error e := rfl

@[simp] theorem deref_some (t : Track) : deref (some t) = Except.ok t := rfl

@[simp] theorem deref_none : deref none = Except.error Fault.nullRef := rfl

theorem andThen_eq_ok_true (a b : Except Fault Bool) :
    andThen a b = Except.ok true ↔ a = Except.ok true ∧ b = Except.ok true := by
  rcases a with e | (_ | _) <;> simp

theorem andThen_ok_ok (a b : Bool) :
    andThen (Except.ok a) (Except.ok b) = Except.ok (a && b) := by
  cases a <;> simp

theorem andThen_eq_map (a : Except Fault Bool) (b : Bool) :
    andThen a (Except.ok b) = (fun x => x && b) <$> a := by
  rcases a with e | (_ | _) <;> simp

/-! ## Quotients and comparisons -/

/-- A division by a non-zero `pt` is the exact quotient. -/
theorem Fp.div_of_ne_zero (a b : ℚ) (negZero : Bool) (hb : b ≠ 0) :
    Fp.div a b negZero = Fp.finite (a / b) := by
  simp [Fp.div, hb]

theorem Fp.lt_div_of_ne_zero (a b t : ℚ) (negZero : Bool) (hb : b ≠ 0) :
    Fp.lt (Fp.div a b negZero) t = decide (a / b < t) := by
  simp [Fp.div, hb, Fp.lt]

/-- The comparison is monotone in the threshold, special values included. -/
theorem Fp.lt_mono (x : Fp) (s t : ℚ) (hst : s ≤ t) (h : Fp.lt x s = true) :
    Fp.lt x t = true := by
  cases x with
  | finite q =>
    simp only [Fp.lt, decide_eq_true_eq] at h ⊢
    exact lt_of_lt_of_le h hst
  | posInf => simp [Fp.lt] at h
  | negInf => rfl
  | nan => simp [Fp.lt] at h

/-! ## Values of the predicates -/

/-- With an inner track the tight no-isolation flag is a value. -/
theorem isWZTightMuonNoIso_of_track (patMu : Muon) (pv : Vertex) (t : Track)
    (hin : patMu.innerTrack = some t) :
    isWZTightMuonNoIso patMu pv =
      Except.ok (patMu.isTightMuon pv && decide (abs (t.dxy pv.position) < 0.02)
        && decide (abs (t.dz pv.position) < 0.1)) := by
  simp only [isWZTightMuonNoIso, hin, deref_some, pure_eq_ok, ok_bind, andThen_ok_ok]

/-- With the tracks it reads, the ICHEP medium flag is a value. -/
theorem isMediumMuonICHEP_of_tracks (recoMu : Muon) (t g : Track)
    (hin : recoMu.innerTrack = some t)
    (hgl : recoMu.isGlobalMuon = true → recoMu.globalTrack = some g) :
    isMediumMuonICHEP recoMu =
      Except.ok (recoMu.isLooseMuon && decide (t.validFraction > 0.49)
        && decide (recoMu.segmentCompatibility >
            (if (recoMu.isGlobalMuon && decide (g.normalizedChi2 < 3)
                && decide (recoMu.combinedQuality.chi2LocalPosition < 12)
                && decide (recoMu.combinedQuality.trkKink < 20)) = true
              then 0.303 else 0.451))) := by
  cases hglob : recoMu.isGlobalMuon with
  | false =>
    simp only [isMediumMuonICHEP, hglob, hin, deref_some, pure_eq_ok, ok_bind, andThen_ok_ok,
      andThen_ok_false, Bool.false_and]
  | true =>
    simp only [isMediumMuonICHEP, hglob, hgl hglob, hin, deref_some, pure_eq_ok, ok_bind,
      andThen_ok_ok, andThen_ok_true, Bool.true_and]

/-- With the tracks it reads, the loose no-isolation flag is a value. -/
theorem isWZLooseMuonNoIso_of_tracks (patMu : Muon) (pv : Vertex) (t g : Track)
    (hin : patMu.innerTrack = some t)
    (hgl : patMu.isGlobalMuon = true → patMu.globalTrack = some g) :
    ∃ b : Bool, isMediumMuonICHEP patMu = Except.ok b ∧
      isWZLooseMuonNoIso patMu pv =
        Except.ok (b && decide (abs (t.dxy pv.position) < 0.02)
          && decide (abs (t.dz pv.position) < 0.1)
          && Fp.lt (Fp.div patMu.trackIso patMu.pt patMu.ptIsNegativeZero) 0.4) := by
  refine ⟨_, isMediumMuonICHEP_of_tracks patMu t g hin hgl, ?_⟩
  simp only [isWZLooseMuonNoIso, isMediumMuonICHEP_of_tracks patMu t g hin hgl, hin, deref_some,
    pure_eq_ok, ok_bind, andThen_ok_ok]

/-- With an inner track the ICHEP soft flag is a value. -/
theorem isSoftMuonICHEP_of_track (recoMu : Muon) (pv : Vertex) (t : Track)
    (hin : recoMu.innerTrack = some t) :
    isSoftMuonICHEP recoMu pv =
      Except.ok (recoMu.isGoodMuonTMOneStationTight
        && decide (t.trackerLayersWithMeasurement > 5)
        && decide (t.pixelLayersWithMeasurement > 0)
        && decide (abs (t.dxy pv.position) < double_0_3)
        && decide (abs (t.dz pv.position) < 20)) := by
  simp only [isSoftMuonICHEP, hin, deref_some, pure_eq_ok, ok_bind, andThen_ok_ok]

theorem isWZTightMuon_eq_isoFlagAt (patMu : Muon) (pv : Vertex) :
    isWZTightMuon patMu pv = isoFlagAt isWZTightMuonNoIso 0.15 patMu pv := rfl

theorem isWZMediumMuon_eq_isoFlagAt (patMu : Muon) (pv : Vertex) :
    isWZMediumMuon patMu pv = isoFlagAt isWZTightMuonNoIso 0.40 patMu pv := rfl

theorem isWZLooseMuon_eq_isoFlagAt (patMu : Muon) (pv : Vertex) :
    isWZLooseMuon patMu pv = isoFlagAt isWZLooseMuonNoIso 0.4 patMu pv := rfl

/-- For a non-zero `pt` the source's `muIso` is the spec's exact ratio. -/
theorem muIso_of_ne_zero (patMu : Muon) (hpt : patMu.pt ≠ 0) :
    muIso patMu = Fp.finite (Spec.ratioOf patMu) := by
  simp only [muIso, Spec.ratioOf, Spec.pfIsolationRatio04, Fp.div_of_ne_zero _ _ _ hpt]

theorem isoFlagAt_eq_map (noIso : Muon → Vertex → Except Fault Bool) (threshold : ℚ)
    (patMu : Muon) (pv : Vertex) :
    isoFlagAt noIso threshold patMu pv =
      (fun b => b && Fp.lt (muIso patMu) threshold) <$> noIso patMu pv := by
  simp only [isoFlagAt, pure_eq_ok, andThen_eq_map]

theorem isoFlagAt_of_ok (noIso : Muon → Vertex → Except Fault Bool) (threshold : ℚ)
    (patMu : Muon) (pv : Vertex) (b : Bool) (h : noIso patMu pv = Except.ok b) :
    isoFlagAt noIso threshold patMu pv = Except.ok (b && Fp.lt (muIso patMu) threshold) := by
  rw [isoFlagAt_eq_map, h, map_ok]

theorem isoFlagAt_of_pos (noIso : Muon → Vertex → Except Fault Bool) (threshold : ℚ)
    (patMu : Muon) (pv : Vertex) (hpt : 0 < patMu.pt) :
    isoFlagAt noIso threshold patMu pv =
      (fun b => b && decide (Spec.ratioOf patMu < threshold)) <$> noIso patMu pv := by
  rw [isoFlagAt_eq_map, muIso_of_ne_zero patMu (ne_of_gt hpt)]
  rfl

theorem isoFlagAt_mono (noIso : Muon → Vertex → Except Fault Bool) (s t : ℚ)
    (patMu : Muon) (pv : Vertex) (hst : s ≤ t)
    (h : isoFlagAt noIso s patMu pv = Except.ok true) :
    isoFlagAt noIso t patMu pv = Except.ok true := by
  simp only [isoFlagAt, pure_eq_ok, andThen_eq_ok_true, Except.ok.injEq] at h ⊢
  exact ⟨h.1, Fp.lt_mono _ s t hst h.2⟩

/-! ## Records -/

/-- When the seven predicates return, `embedIds` returns the record of their values. -/
theorem embedIds_of_values (obj : Muon) (pv : Vertex) (bM bWM bWT bTN bWL bLN bS : Bool)
    (hM : isMediumMuonICHEP obj = Except.ok bM)
    (hWM : isWZMediumMuon obj pv = Except.ok bWM)
    (hWT : isWZTightMuon obj pv = Except.ok bWT)
    (hTN : isWZTightMuonNoIso obj pv = Except.ok bTN)
    (hWL : isWZLooseMuon obj pv = Except.ok bWL)
    (hLN : isWZLooseMuonNoIso obj pv = Except.ok bLN)
    (hS : isSoftMuonICHEP obj pv = Except.ok bS) :
    embedIds obj pv = Except.ok (recordOf obj pv bM bWM bWT bTN bWL bLN bS) := by
  simp only [embedIds, hM, hWM, hWT, hTN, hWL, hLN, hS, ok_bind, pure_eq_ok, recordOf,
    AugmentedMuon.copy, AugmentedMuon.addUserInt, AugmentedMuon.addUserFloat, List.nil_append,
    List.cons_append]

/-- A record is returned only when the seven predicates return, and it is the
record of their values. -/
theorem embedIds_ok_inv (obj : Muon) (pv : Vertex) (r : AugmentedMuon)
    (h : embedIds obj pv = Except.ok r) :
    ∃ bM bWM bWT bTN bWL bLN bS : Bool,
      isMediumMuonICHEP obj = Except.ok bM ∧ isWZMediumMuon obj pv = Except.ok bWM ∧
      isWZTightMuon obj pv = Except.ok bWT ∧ isWZTightMuonNoIso obj pv = Except.ok bTN ∧
      isWZLooseMuon obj pv = Except.ok bWL ∧ isWZLooseMuonNoIso obj pv = Except.ok bLN ∧
      isSoftMuonICHEP obj pv = Except.ok bS ∧
      r = recordOf obj pv bM bWM bWT bTN bWL bLN bS := by
  rcases hM : isMediumMuonICHEP obj with e | bM
  · simp [embedIds, hM] at h
  rcases hWM : isWZMediumMuon obj pv with e | bWM
  · simp [embedIds, hM, hWM] at h
  rcases hWT : isWZTightMuon obj pv with e | bWT
  · simp [embedIds, hM, hWM, hWT] at h
  rcases hTN : isWZTightMuonNoIso obj pv with e | bTN
  · simp [embedIds, hM, hWM, hWT, hTN] at h
  rcases hWL : isWZLooseMuon obj pv with e | bWL
  · simp [embedIds, hM, hWM, hWT, hTN, hWL] at h
  rcases hLN : isWZLooseMuonNoIso obj pv with e | bLN
  · simp [embedIds, hM, hWM, hWT, hTN, hWL, hLN] at h
  rcases hS : isSoftMuonICHEP obj pv with e | bS
  · simp [embedIds, hM, hWM, hWT, hTN, hWL, hLN, hS] at h
  rw [embedIds_of_values obj pv bM bWM bWT bTN bWL bLN bS hM hWM hWT hTN hWL hLN hS] at h
  exact ⟨bM, bWM, bWT, bTN, bWL, bLN, bS, rfl, rfl, rfl, rfl, rfl, rfl, rfl,
    (Except.ok.inj h).symm⟩

/-- With the tracks the predicates read, the record is built. -/
theorem embedIds_of_tracks (obj : Muon) (pv : Vertex) (t g : Track)
    (hin : obj.innerTrack = some t)
    (hgl : obj.isGlobalMuon = true → obj.globalTrack = some g) :
    ∃ bM bWM bWT bTN bWL bLN bS : Bool,
      embedIds obj pv = Except.ok (recordOf obj pv bM bWM bWT bTN bWL bLN bS) := by
  obtain ⟨bM, hM, hLN⟩ := isWZLooseMuonNoIso_of_tracks obj pv t g hin hgl
  have hTN := isWZTightMuonNoIso_of_track obj pv t hin
  have hS := isSoftMuonICHEP_of_track obj pv t hin
  have hWT := isoFlagAt_of_ok isWZTightMuonNoIso 0.15 obj pv _ hTN
  have hWM := isoFlagAt_of_ok isWZTightMuonNoIso 0.40 obj pv _ hTN
  have hWL := isoFlagAt_of_ok isWZLooseMuonNoIso 0.4 obj pv _ hLN
  exact ⟨_, _, _, _, _, _, _, embedIds_of_values obj pv _ _ _ _ _ _ _ hM hWM hWT hTN hWL hLN hS⟩

/-- With the three base flags that guard the accesses to the inner track false,
no predicate reads the inner track: every predicate is false and the record is
built. -/
theorem embedIds_of_guards (obj : Muon) (pv : Vertex) (g : Track)
    (hloose : obj.isLooseMuon = false) (htight : obj.isTightMuon pv = false)
    (hgood : obj.isGoodMuonTMOneStationTight = false)
    (hgl : obj.isGlobalMuon = true → obj.globalTrack = some g) :
    embedIds obj pv =
      Except.ok (recordOf obj pv false false false false false false false) := by
  have hM : isMediumMuonICHEP obj = Except.ok false := by
    cases hglob : obj.isGlobalMuon with
    | false =>
      simp only [isMediumMuonICHEP, hglob, hloose, pure_eq_ok, ok_bind, andThen_ok_false]
    | true =>
      simp only [isMediumMuonICHEP, hglob, hgl hglob, hloose, deref_some, pure_eq_ok, ok_bind,
        andThen_ok_ok, andThen_ok_true, andThen_ok_false, Bool.false_and]
  have hTN : isWZTightMuonNoIso obj pv = Except.ok false := by
    simp only [isWZTightMuonNoIso, htight, pure_eq_ok, andThen_ok_false]
  have hLN : isWZLooseMuonNoIso obj pv = Except.ok false := by
    simp only [isWZLooseMuonNoIso, hM, andThen_ok_false]
  have hS : isSoftMuonICHEP obj pv = Except.ok false := by
    simp only [isSoftMuonICHEP, hgood, pure_eq_ok, ok_bind, andThen_ok_false]
  have hWT : isWZTightMuon obj pv = Except.ok false := by
    rw [isWZTightMuon_eq_isoFlagAt, isoFlagAt, hTN, andThen_ok_false]
  have hWM : isWZMediumMuon obj pv = Except.ok false := by
    rw [isWZMediumMuon_eq_isoFlagAt, isoFlagAt, hTN, andThen_ok_false]
  have hWL : isWZLooseMuon obj pv = Except.ok false := by
    rw [isWZLooseMuon_eq_isoFlagAt, isoFlagAt, hLN, andThen_ok_false]
  exact embedIds_of_values obj pv _ _ _ _ _ _ _ hM hWM hWT hTN hWL hLN hS

/-- The `highPurityTrack` entry of a record. -/
theorem recordOf_highPurityTrack (obj : Muon) (pv : Vertex) (bM bWM bWT bTN bWL bLN bS : Bool) :
    (recordOf obj pv bM bWM bWT bTN bWL bLN bS).userInt "highPurityTrack" =
      some (match obj.innerTrack with
        | some t => boolToInt t.qualityHighPurity
        | none => 0) := rfl

/-! ## The loop of `produce` -/

/-- The loop returns exactly when every candidate's record is built; the
records are then appended to `out`, in the order of the candidates. -/
theorem produceLoop_ok_iff (pv : Vertex) (cs : List Muon) (acc out : List AugmentedMuon) :
    produceLoop pv cs acc = Except.ok out ↔
      ∃ rs, out = acc ++ rs ∧
        List.Forall₂ (fun c r => embedIds c pv = Except.ok r) cs rs := by
  induction cs generalizing acc with
  | nil =>
    simp only [produceLoop, Except.ok.injEq, List.forall₂_nil_left_iff]
    constructor
    · intro h
      exact ⟨[], by simp [h], rfl⟩
    · rintro ⟨rs, h, rfl⟩
      simp [h]
  | cons c cs ih =>
    cases hc : embedIds c pv with
    | error e =>
      simp only [produceLoop, hc, List.forall₂_cons_left_iff]
      constructor
      · intro h
        exact absurd h (by simp [bind, Except.bind])
      · rintro ⟨rs, -, r, us, hr, -, -⟩
        cases hr
    | ok r =>
      simp only [produceLoop, hc, ok_bind, ih, List.forall₂_cons_left_iff, Except.ok.injEq]
      constructor
      · rintro ⟨rs, h, hall⟩
        exact ⟨r :: rs, by simp [h], r, rs, rfl, hall, rfl⟩
      · rintro ⟨rs, h, r2, us, hr, hall, rfl⟩
        subst hr
        exact ⟨us, by simp [h], hall⟩

/-- The loop returns when every candidate's record can be built. -/
theorem produceLoop_returns (pv : Vertex) (cs : List Muon) (acc : List AugmentedMuon)
    (h : ∀ obj ∈ cs, ∃ r, embedIds obj pv = Except.ok r) :
    ∃ out, produceLoop pv cs acc = Except.ok out := by
  induction cs generalizing acc with
  | nil => exact ⟨acc, rfl⟩
  | cons c cs ih =>
    obtain ⟨r, hr⟩ := h c (List.mem_cons_self c cs)
    obtain ⟨out, hout⟩ := ih (acc ++ [r]) (fun obj hobj => h obj (List.mem_cons_of_mem c hobj))
    exact ⟨out, by simp only [produceLoop, hr, ok_bind, hout]⟩

/-- The loop fails only with the failure of some candidate's record. -/
theorem produceLoop_error (pv : Vertex) (cs : List Muon) (acc : List AugmentedMuon) (e : Fault)
    (h : produceLoop pv cs acc = Except.error e) :
    ∃ obj ∈ cs, embedIds obj pv = Except.error e := by
  induction cs generalizing acc with
  | nil => simp [produceLoop] at h
  | cons c cs ih =>
    cases hc : embedIds c pv with
    | error e2 =>
      simp only [produceLoop, hc, error_bind, Except.error.injEq] at h
      subst h
      exact ⟨c, List.mem_cons_self c cs, hc⟩
    | ok r =>
      simp only [produceLoop, hc, ok_bind] at h
      obtain ⟨obj, hobj, hfail⟩ := ih (acc ++ [r]) h
      exact ⟨obj, List.mem_cons_of_mem c hobj, hfail⟩

/-- Index-wise reading of `Forall₂`. -/
theorem forall₂_getElem? {α β : Type} {R : α → β → Prop} {l₁ : List α} {l₂ : List β}
    (h : List.Forall₂ R l₁ l₂) (i : Nat) (a : α) (ha : l₁[i]? = some a) :
    ∃ b, l₂[i]? = some b ∧ R a b := by
  induction h generalizing i with
  | nil => simp at ha
  | cons hab _ ih =>
    cases i with
    | zero =>
      simp only [List.getElem?_cons_zero, Option.some.injEq] at ha
      subst ha
      exact ⟨_, by simp, hab⟩
    | succ i =>
      simp only [List.getElem?_cons_succ] at ha ⊢
      exact ih i ha

/-! ## Tier implications -/

/-- C1: whenever `isWZTightMuon` is true so is `isWZTightMuonNoIso`, and whenever
`isWZTightMuonNoIso` is true the base tight flag holds at the vertex and the
inner track satisfies `|dxy| < 0.02` and `|dz| < 0.1`. -/
theorem isWZTightMuon_imp_noIso_imp_base (patMu : Muon) (pv : Vertex) :
    (isWZTightMuon patMu pv = Except.ok true →
      isWZTightMuonNoIso patMu pv = Except.ok true) ∧
    (isWZTightMuonNoIso patMu pv = Except.ok true →
      patMu.isTightMuon pv = true ∧
      ∃ t, patMu.innerTrack = some t ∧
        abs (t.dxy pv.position) < 0.02 ∧ abs (t.dz pv.position) < 0.1) := by
  constructor
  · intro h
    simp only [isWZTightMuon, andThen_eq_ok_true] at h
    exact h.1
  · intro h
    simp only [isWZTightMuonNoIso, andThen_eq_ok_true] at h
    obtain ⟨⟨h1, h2⟩, h3⟩ := h
    cases hin : patMu.innerTrack with
    | none => simp [hin] at h2
    | some t =>
      simp [hin] at h1 h2 h3
      exact ⟨h1, t, rfl, h2, h3⟩

/-- The chain of C1 at `sampleMuon`, where `isWZTightMuon` is true. -/
theorem isWZTightMuon_imp_noIso_imp_base_witness :
    isWZTightMuon sampleMuon origin = Except.ok true ∧
    isWZTightMuonNoIso sampleMuon origin = Except.ok true ∧
    sampleMuon.isTightMuon origin = true :=
  have h : isWZTightMuon sampleMuon origin = Except.ok true := by
    simp [isWZTightMuon, isWZTightMuonNoIso, sampleMuon, sampleTrack, origin, Fp.div, Fp.lt,
      abs_lt]
    norm_num
  have h2 := (isWZTightMuon_imp_noIso_imp_base sampleMuon origin).1 h
  ⟨h, h2, ((isWZTightMuon_imp_noIso_imp_base sampleMuon origin).2 h2).1⟩

/-- C2: whenever `isWZLooseMuon` is true so is `isWZLooseMuonNoIso`, and whenever
`isWZLooseMuonNoIso` is true so is `isMediumMuonICHEP`. -/
theorem isWZLooseMuon_imp_noIso_imp_medium (patMu : Muon) (pv : Vertex) :
    (isWZLooseMuon patMu pv = Except.ok true →
      isWZLooseMuonNoIso patMu pv = Except.ok true) ∧
    (isWZLooseMuonNoIso patMu pv = Except.ok true →
      isMediumMuonICHEP patMu = Except.ok true) := by
  constructor
  · intro h
    simp only [isWZLooseMuon, andThen_eq_ok_true] at h
    exact h.1
  · intro h
    simp only [isWZLooseMuonNoIso, andThen_eq_ok_true] at h
    exact h.1.1.1

/-- The chain of C2 at `sampleMuon`, where `isWZLooseMuon` is true. -/
theorem isWZLooseMuon_imp_noIso_imp_medium_witness :
    isWZLooseMuon sampleMuon origin = Except.ok true ∧
    isWZLooseMuonNoIso sampleMuon origin = Except.ok true ∧
    isMediumMuonICHEP sampleMuon = Except.ok true :=
  have h : isWZLooseMuon sampleMuon origin = Except.ok true := by
    simp [isWZLooseMuon, isWZLooseMuonNoIso, isMediumMuonICHEP, sampleMuon, sampleTrack,
      origin, Fp.div, Fp.lt, abs_lt]
    norm_num
  have h2 := (isWZLooseMuon_imp_noIso_imp_medium sampleMuon origin).1 h
  ⟨h, h2, (isWZLooseMuon_imp_noIso_imp_medium sampleMuon origin).2 h2⟩

/-! ## The per-event operation -/

/-- C3, the code at the failing input: with no vertex `produce` reaches the
dereference of `vertices->begin()` of line 62, whose behaviour is undefined; the
source has no emptiness check and raises no error of its own. -/
theorem produce_no_vertex (collection : List Muon) :
    produce collection [] = Except.error Fault.undefinedBehaviour := rfl

/-- C4: with a non-empty vertex collection, an output of `produce` has the length
of the input and its record at every index is the record `embedIds` builds
from the candidate at that index and the first vertex; the output exists as soon
as each candidate's record can be built, a failure of `produce` is the failure of
some candidate's record, and the output is empty for no candidate. -/
theorem produce_pointwise (collection : List Muon) (pv : Vertex) (vs : List Vertex) :
    (∀ out, produce collection (pv :: vs) = Except.ok out →
      out.length = collection.length ∧
      ∀ (i : Nat) (obj : Muon), collection[i]? = some obj →
        ∃ r, out[i]? = some r ∧ embedIds obj pv = Except.ok r) ∧
    ((∀ obj ∈ collection, ∃ r, embedIds obj pv = Except.ok r) →
      ∃ out, produce collection (pv :: vs) = Except.ok out) ∧
    (∀ e, produce collection (pv :: vs) = Except.error e →
      ∃ obj ∈ collection, embedIds obj pv = Except.error e) ∧
    produce [] (pv :: vs) = Except.ok [] := by
  refine ⟨?_, ?_, ?_, rfl⟩
  · intro out h
    obtain ⟨rs, hout, hall⟩ := (produceLoop_ok_iff pv collection [] out).1 h
    simp only [List.nil_append] at hout
    subst hout
    exact ⟨hall.length_eq.symm, fun i obj hobj => forall₂_getElem? hall i obj hobj⟩
  · intro h
    exact produceLoop_returns pv collection [] h
  · intro e h
    exact produceLoop_error pv collection [] e h

/-- An instance of C4: two candidates, two vertices; the output exists and has
two records. -/
theorem produce_pointwise_witness :
    ∃ out, produce [sampleMuon, lowSegmentMuon] [origin, displaced] = Except.ok out ∧
      out.length = 2 := by
  have hall : ∀ obj ∈ [sampleMuon, lowSegmentMuon],
      ∃ r, embedIds obj origin = Except.ok r := by
    intro obj hobj
    simp only [List.mem_cons, List.mem_singleton, List.not_mem_nil, or_false] at hobj
    rcases hobj with rfl | rfl
    · obtain ⟨_, _, _, _, _, _, _, h⟩ :=
        embedIds_of_tracks sampleMuon origin sampleTrack sampleTrack rfl (fun _ => rfl)
      exact ⟨_, h⟩
    · obtain ⟨_, _, _, _, _, _, _, h⟩ :=
        embedIds_of_tracks lowSegmentMuon origin sampleTrack sampleTrack rfl (fun _ => rfl)
      exact ⟨_, h⟩
  obtain ⟨out, hout⟩ :=
    (produce_pointwise [sampleMuon, lowSegmentMuon] origin [displaced]).2.1 hall
  exact ⟨out, hout,
    ((produce_pointwise [sampleMuon, lowSegmentMuon] origin [displaced]).1 out hout).1⟩

/-! ## The ICHEP medium predicate -/

/-- C5: for a candidate with an inner track, and a global track when
`isGlobalMuon`, `isMediumMuonICHEP` returns the spec's
`isLooseMuonBase ∧ validFraction > 0.49 ∧ segmentCompatibility > T` with `T = 0.303`
when `goodGlob` and `0.451` otherwise; on the values of scenario 1 the formula is
true (with `goodGlob`), on those of scenario 2 it is false. -/
theorem isMediumMuonICHEP_eq_spec (recoMu : Muon) (t g : Track)
    (hin : recoMu.innerTrack = some t)
    (hgl : recoMu.isGlobalMuon = true → recoMu.globalTrack = some g) :
    isMediumMuonICHEP recoMu =
      Except.ok (Spec.isMediumICHEP recoMu.isLooseMuon recoMu.isGlobalMuon g.normalizedChi2
        recoMu.combinedQuality.chi2LocalPosition recoMu.combinedQuality.trkKink
        t.validFraction recoMu.segmentCompatibility) ∧
    Spec.goodGlob true 2 5 10 = true ∧
    Spec.isMediumICHEP true true 2 5 10 0.6 0.5 = true ∧
    Spec.isMediumICHEP true true 2 5 10 0.6 0.2 = false := by
  refine ⟨?_, ?_, ?_, ?_⟩
  · rw [isMediumMuonICHEP_of_tracks recoMu t g hin hgl]
    rfl
  · simp [Spec.goodGlob]; norm_num
  · simp [Spec.isMediumICHEP, Spec.goodGlob]; norm_num
  · simp [Spec.isMediumICHEP, Spec.goodGlob]; norm_num

/-- Scenarios 1 and 2 of the spec, on the code: the candidate of scenario 1 is
medium, the one of scenario 2 is not. -/
theorem isMediumMuonICHEP_eq_spec_witness :
    isMediumMuonICHEP sampleMuon = Except.ok true ∧
    isMediumMuonICHEP lowSegmentMuon = Except.ok false := by
  have h1 := (isMediumMuonICHEP_eq_spec sampleMuon sampleTrack sampleTrack rfl (fun _ => rfl))
  have h2 := (isMediumMuonICHEP_eq_spec lowSegmentMuon sampleTrack sampleTrack rfl
    (fun _ => rfl))
  refine ⟨?_, ?_⟩
  · rw [h1.1]
    exact congrArg Except.ok h1.2.2.1
  · rw [h2.1]
    exact congrArg Except.ok h2.2.2.2

/-! ## Isolation -/

/-- C6: for a candidate with `pt > 0`, with `R` the spec's exact ratio,
`isWZTightMuon = isWZTightMuonNoIso ∧ R < 0.15`,
`isWZMediumMuon = isWZTightMuonNoIso ∧ R < 0.40` and
`isWZLooseMuon = isWZLooseMuonNoIso ∧ R < 0.4` (a failure of the no-isolation
flag is the failure of the flag); the three use the one value `muIso`, equal to
`R`; on the sums of scenario 3 `R = 0.08`, below both `0.15` and `0.40`. -/
theorem isolation_flags_eq_spec (patMu : Muon) (pv : Vertex) (hpt : 0 < patMu.pt) :
    isWZTightMuon patMu pv =
      (fun b => b && decide (Spec.ratioOf patMu < 0.15)) <$> isWZTightMuonNoIso patMu pv ∧
    isWZMediumMuon patMu pv =
      (fun b => b && decide (Spec.ratioOf patMu < 0.40)) <$> isWZTightMuonNoIso patMu pv ∧
    isWZLooseMuon patMu pv =
      (fun b => b && decide (Spec.ratioOf patMu < 0.4)) <$> isWZLooseMuonNoIso patMu pv ∧
    muIso patMu = Fp.finite (Spec.ratioOf patMu) ∧
    Spec.pfIsolationRatio04 2 3 1 4 50 = 0.08 ∧
    Spec.pfIsolationRatio04 2 3 1 4 50 < 0.15 ∧
    Spec.pfIsolationRatio04 2 3 1 4 50 < 0.40 := by
  refine ⟨?_, ?_, ?_, muIso_of_ne_zero patMu (ne_of_gt hpt), ?_, ?_, ?_⟩
  · rw [isWZTightMuon_eq_isoFlagAt, isoFlagAt_of_pos _ _ _ _ hpt]
  · rw [isWZMediumMuon_eq_isoFlagAt, isoFlagAt_of_pos _ _ _ _ hpt]
  · rw [isWZLooseMuon_eq_isoFlagAt, isoFlagAt_of_pos _ _ _ _ hpt]
  · norm_num [Spec.pfIsolationRatio04]
  · norm_num [Spec.pfIsolationRatio04]
  · norm_num [Spec.pfIsolationRatio04]

/-- Scenario 3 of the spec, on the code: `sampleMuon` has `pt = 50` and the sums
`2, 3, 1, 4`; its `muIso` is `0.08`. -/
theorem isolation_flags_eq_spec_witness :
    0 < sampleMuon.pt ∧ muIso sampleMuon = Fp.finite 0.08 := by
  have hpt : 0 < sampleMuon.pt := by norm_num [sampleMuon]
  refine ⟨hpt, ?_⟩
  have h := isolation_flags_eq_spec sampleMuon origin hpt
  rw [h.2.2.2.1]
  exact congrArg Fp.finite h.2.2.2.2.1

/-! ## Non-positive transverse momentum -/

/-- C7, counterexample: at `pt = -1` the four isolation-dependent flags return
`true`, at `pt = +0.0` they return `false` and at `pt = -0.0` they return `true`;
none of the evaluations fails. -/
theorem nonpositive_pt_flags_computed :
    negativePtMuon.pt ≤ 0 ∧
    isWZTightMuon negativePtMuon origin = Except.ok true ∧
    isWZMediumMuon negativePtMuon origin = Except.ok true ∧
    isWZLooseMuon negativePtMuon origin = Except.ok true ∧
    isWZLooseMuonNoIso negativePtMuon origin = Except.ok true ∧
    zeroPtMuon.pt ≤ 0 ∧
    isWZTightMuon zeroPtMuon origin = Except.ok false ∧
    isWZMediumMuon zeroPtMuon origin = Except.ok false ∧
    isWZLooseMuon zeroPtMuon origin = Except.ok false ∧
    isWZLooseMuonNoIso zeroPtMuon origin = Except.ok false ∧
    negativeZeroPtMuon.pt ≤ 0 ∧
    isWZTightMuon negativeZeroPtMuon origin = Except.ok true ∧
    isWZMediumMuon negativeZeroPtMuon origin = Except.ok true ∧
    isWZLooseMuon negativeZeroPtMuon origin = Except.ok true ∧
    isWZLooseMuonNoIso negativeZeroPtMuon origin = Except.ok true := by
  refine ⟨by norm_num [negativePtMuon], ?_, ?_, ?_, ?_, by norm_num [zeroPtMuon], ?_, ?_, ?_, ?_,
    by norm_num [negativeZeroPtMuon], ?_, ?_, ?_, ?_⟩
  all_goals
    simp [isWZTightMuon, isWZMediumMuon, isWZLooseMuon, isWZTightMuonNoIso, isWZLooseMuonNoIso,
      isMediumMuonICHEP, negativePtMuon, zeroPtMuon, negativeZeroPtMuon, sampleMuon, sampleTrack,
      origin, Fp.div, Fp.lt, abs_lt]
  all_goals norm_num

/-- C7, amended: for a candidate with `pt ≤ 0` that has an inner track, and a
global track when `isGlobalMuon`, the four isolation-dependent flags are
evaluated without failure: each returns a Boolean value. -/
theorem nonpositive_pt_flags_return (patMu : Muon) (pv : Vertex) (t g : Track)
    (_hpt : patMu.pt ≤ 0) (hin : patMu.innerTrack = some t)
    (hgl : patMu.isGlobalMuon = true → patMu.globalTrack = some g) :
    ∃ bT bM bL bN : Bool,
      isWZTightMuon patMu pv = Except.ok bT ∧
      isWZMediumMuon patMu pv = Except.ok bM ∧
      isWZLooseMuon patMu pv = Except.ok bL ∧
      isWZLooseMuonNoIso patMu pv = Except.ok bN := by
  obtain ⟨bM, -, hLN⟩ := isWZLooseMuonNoIso_of_tracks patMu pv t g hin hgl
  have hTN := isWZTightMuonNoIso_of_track patMu pv t hin
  exact ⟨_, _, _, _, isoFlagAt_of_ok isWZTightMuonNoIso 0.15 patMu pv _ hTN,
    isoFlagAt_of_ok isWZTightMuonNoIso 0.40 patMu pv _ hTN,
    isoFlagAt_of_ok isWZLooseMuonNoIso 0.4 patMu pv _ hLN, hLN⟩

/-- The amended C7 at `pt = -1` and at `pt = -0.0`. -/
theorem nonpositive_pt_flags_return_witness :
    negativePtMuon.pt ≤ 0 ∧
    (∃ b : Bool, isWZTightMuon negativePtMuon origin = Except.ok b) ∧
    negativeZeroPtMuon.pt ≤ 0 ∧
    (∃ b : Bool, isWZLooseMuon negativeZeroPtMuon origin = Except.ok b) := by
  have hpt : negativePtMuon.pt ≤ 0 := by norm_num [negativePtMuon]
  have hpt₂ : negativeZeroPtMuon.pt ≤ 0 := by norm_num [negativeZeroPtMuon]
  obtain ⟨bT, -, -, -, h, -⟩ :=
    nonpositive_pt_flags_return negativePtMuon origin sampleTrack sampleTrack hpt rfl
      (fun _ => rfl)
  obtain ⟨-, -, bL, -, -, -, h₂, -⟩ :=
    nonpositive_pt_flags_return negativeZeroPtMuon origin sampleTrack sampleTrack hpt₂ rfl
      (fun _ => rfl)
  exact ⟨hpt, ⟨_, h⟩, hpt₂, ⟨_, h₂⟩⟩

/-! ## The high-purity entry -/

/-- C8: for a well-formed candidate without an inner track the loop body does not
fail and the record has `highPurityTrack = 0`; for a well-formed candidate with an
inner track it does not fail and `highPurityTrack` is `1` if the high-purity flag
of the track is set and `0` otherwise; and whatever the candidate, a record that
is emitted holds these values. -/
theorem highPurityTrack_entry (obj : Muon) (pv : Vertex) (hwf : obj.WellFormed pv) :
    (obj.innerTrack = none →
      ∃ r, embedIds obj pv = Except.ok r ∧ r.userInt "highPurityTrack" = some 0) ∧
    (∀ t, obj.innerTrack = some t →
      ∃ r, embedIds obj pv = Except.ok r ∧
        r.userInt "highPurityTrack" = some (if t.qualityHighPurity = true then 1 else 0)) ∧
    (∀ r, embedIds obj pv = Except.ok r →
      (obj.innerTrack = none → r.userInt "highPurityTrack" = some 0) ∧
      (∀ t, obj.innerTrack = some t →
        r.userInt "highPurityTrack" =
          some (if t.qualityHighPurity = true then 1 else 0))) := by
  obtain ⟨hl, ht, hg, hglob⟩ := hwf
  have hgl : ∃ g, obj.isGlobalMuon = true → obj.globalTrack = some g := by
    cases hgt : obj.globalTrack with
    | some g => exact ⟨g, fun _ => rfl⟩
    | none =>
      refine ⟨sampleTrack, fun h => ?_⟩
      have h2 := hglob h
      rw [hgt] at h2
      cases h2
  obtain ⟨g, hgl⟩ := hgl
  refine ⟨?_, ?_, ?_⟩
  · intro hin
    rw [hin] at hl ht hg
    have hloose : obj.isLooseMuon = false := by
      cases hb : obj.isLooseMuon with
      | false => rfl
      | true => exact absurd (hl hb) (by simp)
    have htight : obj.isTightMuon pv = false := by
      cases hb : obj.isTightMuon pv with
      | false => rfl
      | true => exact absurd (ht hb) (by simp)
    have hgood : obj.isGoodMuonTMOneStationTight = false := by
      cases hb : obj.isGoodMuonTMOneStationTight with
      | false => rfl
      | true => exact absurd (hg hb) (by simp)
    refine ⟨_, embedIds_of_guards obj pv g hloose htight hgood hgl, ?_⟩
    rw [recordOf_highPurityTrack, hin]
  · intro t hin
    obtain ⟨_, _, _, _, _, _, _, h⟩ := embedIds_of_tracks obj pv t g hin hgl
    refine ⟨_, h, ?_⟩
    rw [recordOf_highPurityTrack, hin]
    rfl
  · intro r hr
    obtain ⟨bM, bWM, bWT, bTN, bWL, bLN, bS, -, -, -, -, -, -, -, rfl⟩ :=
      embedIds_ok_inv obj pv r hr
    rw [recordOf_highPurityTrack]
    constructor
    · intro hin
      rw [hin]
    · intro t hin
      rw [hin]
      rfl

/-- Instances of C8: a candidate without tracks, and `sampleMuon`, whose inner
track is of high purity; both are well-formed. -/
theorem highPurityTrack_entry_witness :
    standaloneMuon.WellFormed origin ∧ standaloneMuon.innerTrack = none ∧
    (∃ r, embedIds standaloneMuon origin = Except.ok r ∧
      r.userInt "highPurityTrack" = some 0) ∧
    sampleMuon.WellFormed origin ∧
    (∃ r, embedIds sampleMuon origin = Except.ok r ∧
      r.userInt "highPurityTrack" = some 1) := by
  have hwf₁ : standaloneMuon.WellFormed origin := by
    simp [Muon.WellFormed, standaloneMuon]
  have hwf₂ : sampleMuon.WellFormed origin := by
    simp [Muon.WellFormed, sampleMuon]
  exact ⟨hwf₁, rfl, (highPurityTrack_entry standaloneMuon origin hwf₁).1 rfl, hwf₂,
    (highPurityTrack_entry sampleMuon origin hwf₂).2.1 sampleTrack rfl⟩

/-! ## Monotonicity in the isolation threshold -/

/-- C9: the isolation-dependent flag `noIso ∧ muIso < t` is monotone in the
threshold `t`: true at `t₁`, it is true at every `t₂ ≥ t₁`; for `pt > 0` it is
`noIso ∧ R < t` with the spec's ratio `R`; `isWZTightMuon`, `isWZMediumMuon` and
`isWZLooseMuon` are its instances at `0.15`, `0.40` and `0.4`; and `isWZTightMuon`
implies `isWZMediumMuon` for every candidate and vertex. -/
theorem isolation_threshold_monotone (patMu : Muon) (pv : Vertex) :
    (∀ (noIso : Muon → Vertex → Except Fault Bool) (t₁ t₂ : ℚ), t₁ ≤ t₂ →
      isoFlagAt noIso t₁ patMu pv = Except.ok true →
      isoFlagAt noIso t₂ patMu pv = Except.ok true) ∧
    (∀ (noIso : Muon → Vertex → Except Fault Bool) (t : ℚ), 0 < patMu.pt →
      isoFlagAt noIso t patMu pv =
        (fun b => b && decide (Spec.ratioOf patMu < t)) <$> noIso patMu pv) ∧
    (isWZTightMuon patMu pv = isoFlagAt isWZTightMuonNoIso 0.15 patMu pv ∧
      isWZMediumMuon patMu pv = isoFlagAt isWZTightMuonNoIso 0.40 patMu pv ∧
      isWZLooseMuon patMu pv = isoFlagAt isWZLooseMuonNoIso 0.4 patMu pv) ∧
    (isWZTightMuon patMu pv = Except.ok true → isWZMediumMuon patMu pv = Except.ok true) := by
  refine ⟨?_, ?_, ⟨rfl, rfl, rfl⟩, ?_⟩
  · intro noIso t₁ t₂ h12 h
    exact isoFlagAt_mono noIso t₁ t₂ patMu pv h12 h
  · intro noIso t hpt
    exact isoFlagAt_of_pos noIso t patMu pv hpt
  · intro h
    rw [isWZTightMuon_eq_isoFlagAt] at h
    rw [isWZMediumMuon_eq_isoFlagAt]
    exact isoFlagAt_mono _ 0.15 0.40 patMu pv (by norm_num) h

/-- An instance of C9: `sampleMuon` is tight, hence medium. -/
theorem isolation_threshold_monotone_witness :
    isWZTightMuon sampleMuon origin = Except.ok true ∧
    isWZMediumMuon sampleMuon origin = Except.ok true :=
  have h : isWZTightMuon sampleMuon origin = Except.ok true := by
    simp [isWZTightMuon, isWZTightMuonNoIso, sampleMuon, sampleTrack, origin, Fp.div, Fp.lt,
      abs_lt]
    norm_num
  ⟨h, (isolation_threshold_monotone sampleMuon origin).2.2.2 h⟩

/-! ## The selected vertex -/

/-- C10: two non-empty vertex collections with the same first vertex give the
same result of `produce`, whatever the candidates. -/
theorem produce_first_vertex_only (collection : List Muon) (vs₁ vs₂ : List Vertex)
    (h₁ : vs₁ ≠ []) (h₂ : vs₂ ≠ []) (h : vs₁.head? = vs₂.head?) :
    produce collection vs₁ = produce collection vs₂ := by
  cases vs₁ with
  | nil => exact absurd rfl h₁
  | cons a as =>
    cases vs₂ with
    | nil => exact absurd rfl h₂
    | cons b bs =>
      simp only [List.head?_cons, Option.some.injEq] at h
      subst h
      rfl

/-- An instance of C10: the origin followed by different vertices. -/
theorem produce_first_vertex_only_witness :
    produce [sampleMuon] [origin, displaced] = produce [sampleMuon] [origin] :=
  produce_first_vertex_only [sampleMuon] [origin, displaced] [origin]
    (by simp) (by simp) rfl

/-! ## Further lemmas -/

/-- A Boolean is stored as `0` or `1`. -/
theorem boolToInt_cases (b : Bool) : boolToInt b = 0 ∨ boolToInt b = 1 := by
  cases b
  · exact Or.inl rfl
  · exact Or.inr rfl

/-- The records of a successful loop carry the candidates, in order. -/
theorem map_muon_of_forall₂ (pv : Vertex) (cs : List Muon) (rs : List AugmentedMuon)
    (h : List.Forall₂ (fun c r => embedIds c pv = Except.ok r) cs rs) :
    rs.map AugmentedMuon.muon = cs := by
  induction h with
  | nil => rfl
  | cons hab _ ih =>
    obtain ⟨_, _, _, _, _, _, _, -, -, -, -, -, -, -, rfl⟩ := embedIds_ok_inv _ pv _ hab
    simp only [List.map_cons, ih]
    rfl

/-- The ICHEP medium predicate is true exactly when the candidate is loose, its
inner track is present with `validFraction > 0.49`, and the segment compatibility
exceeds the selected threshold. -/
theorem isMediumMuonICHEP_true_iff (recoMu : Muon) (g : Track)
    (hgl : recoMu.isGlobalMuon = true → recoMu.globalTrack = some g) :
    isMediumMuonICHEP recoMu = Except.ok true ↔
      recoMu.isLooseMuon = true ∧
      (∃ t, recoMu.innerTrack = some t ∧ t.validFraction > 0.49) ∧
      recoMu.segmentCompatibility >
        (if Spec.goodGlob recoMu.isGlobalMuon g.normalizedChi2
            recoMu.combinedQuality.chi2LocalPosition recoMu.combinedQuality.trkKink = true
          then 0.303 else 0.451) := by
  cases hin : recoMu.innerTrack with
  | none =>
    cases hloose : recoMu.isLooseMuon with
    | false =>
      cases hglob : recoMu.isGlobalMuon with
      | false => simp [isMediumMuonICHEP, hglob, hloose]
      | true => simp [isMediumMuonICHEP, hglob, hgl hglob, hloose, andThen_ok_ok]
    | true =>
      cases hglob : recoMu.isGlobalMuon with
      | false => simp [isMediumMuonICHEP, hglob, hloose, hin]
      | true => simp [isMediumMuonICHEP, hglob, hgl hglob, hloose, hin, andThen_ok_ok]
  | some t =>
    rw [isMediumMuonICHEP_of_tracks recoMu t g hin hgl]
    simp only [Except.ok.injEq, Bool.and_eq_true, decide_eq_true_eq, Spec.goodGlob,
      Option.some.injEq, exists_eq_left']
    tauto

/-- For a candidate that is not loose, the ICHEP medium predicate reads no
inner-track quantity: it is false, unless the global-muon bit is set and the
global track, read first, is absent. -/
theorem isMediumMuonICHEP_of_not_loose (recoMu : Muon) (hloose : recoMu.isLooseMuon = false) :
    isMediumMuonICHEP recoMu =
      if (recoMu.isGlobalMuon && recoMu.globalTrack.isNone) = true
        then Except.error Fault.nullRef else Except.ok false := by
  cases hglob : recoMu.isGlobalMuon with
  | false =>
    simp only [isMediumMuonICHEP, hglob, hloose, pure_eq_ok, ok_bind, andThen_ok_false,
      Bool.false_and, Bool.false_eq_true, if_false]
  | true =>
    cases hg : recoMu.globalTrack with
    | none =>
      simp only [isMediumMuonICHEP, hglob, hg, deref_none, pure_eq_ok, error_bind,
        andThen_ok_true, andThen_error, Option.isNone_none, Bool.and_self, if_true]
    | some g =>
      simp only [isMediumMuonICHEP, hglob, hg, hloose, deref_some, pure_eq_ok, ok_bind,
        andThen_ok_ok, andThen_ok_true, andThen_ok_false, Bool.false_and, Option.isNone_some,
        Bool.and_false, Bool.false_eq_true, if_false]

/-- When the ICHEP medium predicate does not return `true`, the loose
no-isolation flag returns what the predicate returns. -/
theorem isWZLooseMuonNoIso_of_medium (patMu : Muon) (pv : Vertex) (x : Except Fault Bool)
    (hx : x = Except.ok false ∨ x = Except.error Fault.nullRef)
    (hM : isMediumMuonICHEP patMu = x) :
    isWZLooseMuonNoIso patMu pv = x ∧ isWZLooseMuon patMu pv = x := by
  have hLN : isWZLooseMuonNoIso patMu pv = x := by
    rcases hx with rfl | rfl <;>
      simp only [isWZLooseMuonNoIso, hM, andThen_ok_false, andThen_error]
  refine ⟨hLN, ?_⟩
  rw [isWZLooseMuon_eq_isoFlagAt, isoFlagAt, hLN]
  rcases hx with rfl | rfl
  · rfl
  · rfl

/-- The spec's ratio is bounded below by the charged-hadron term. -/
theorem Spec.le_ratioOf (c : Muon) (hpt : 0 < c.pt) :
    c.pfIsolationR04.sumChargedHadronPt / c.pt ≤ Spec.ratioOf c := by
  unfold Spec.ratioOf Spec.pfIsolationRatio04
  exact (div_le_div_iff_of_pos_right hpt).2 (le_add_of_nonneg_right (le_max_left _ _))

/-- The spec's ratio does not increase when `sumPUPt` grows. -/
theorem Spec.ratioOf_withSumPUPt_le (c : Muon) (pu : ℚ) (hpt : 0 < c.pt)
    (hpu : c.pfIsolationR04.sumPUPt ≤ pu) :
    Spec.ratioOf (withSumPUPt c pu) ≤ Spec.ratioOf c := by
  unfold Spec.ratioOf Spec.pfIsolationRatio04 withSumPUPt
  refine (div_le_div_iff_of_pos_right hpt).2 (add_le_add_left (max_le_max le_rfl ?_) _)
  linarith

/-- An isolation-dependent flag stays true when the ratio does not increase and
the no-isolation flag is unchanged. -/
theorem isoFlagAt_of_ratio_le (noIso : Muon → Vertex → Except Fault Bool) (threshold : ℚ)
    (c c₂ : Muon) (pv : Vertex) (hpt : 0 < c.pt) (hpt₂ : 0 < c₂.pt)
    (hno : noIso c₂ pv = noIso c pv) (hle : Spec.ratioOf c₂ ≤ Spec.ratioOf c)
    (h : isoFlagAt noIso threshold c pv = Except.ok true) :
    isoFlagAt noIso threshold c₂ pv = Except.ok true := by
  rw [isoFlagAt_of_pos noIso threshold c pv hpt] at h
  rw [isoFlagAt_of_pos noIso threshold c₂ pv hpt₂, hno]
  rcases hn : noIso c pv with e | b
  · rw [hn] at h
    simp at h
  · rw [hn] at h
    simp only [map_ok, Except.ok.injEq, Bool.and_eq_true, decide_eq_true_eq] at h ⊢
    exact ⟨h.1, lt_of_le_of_lt hle h.2⟩

/-! ## The entries of the record -/

/-- C11: for a candidate with an inner track, every record the loop body emits
carries exactly the twelve integer keys and the key `segmentCompatibility`; each
integer entry is `0` or `1`, the entry of a predicate is the value the predicate
returns, `isTightMuon`, `isSoftMuon`, `isHighPtMuon` and `isGoodMuon` hold the base
flags, `highPurityTrack` the high-purity flag of the inner track, and
`segmentCompatibility` the candidate's score; a record is emitted when the global
track is present whenever `isGlobalMuon`. -/
theorem embedIds_entries (obj : Muon) (pv : Vertex) (t : Track)
    (hin : obj.innerTrack = some t) :
    (∀ r, embedIds obj pv = Except.ok r →
      r.userInts.map Prod.fst = userIntKeys ∧
      r.userFloats.map Prod.fst = userFloatKeys ∧
      (∀ kv ∈ r.userInts, kv.2 = 0 ∨ kv.2 = 1) ∧
      r.userInt "isTightMuon" = some (boolToInt (obj.isTightMuon pv)) ∧
      (∃ b, isMediumMuonICHEP obj = Except.ok b ∧
        r.userInt "isMediumMuonICHEP" = some (boolToInt b)) ∧
      (∃ b, isWZMediumMuon obj pv = Except.ok b ∧
        r.userInt "isWZMediumMuon" = some (boolToInt b)) ∧
      (∃ b, isWZTightMuon obj pv = Except.ok b ∧
        r.userInt "isWZTightMuon" = some (boolToInt b)) ∧
      (∃ b, isWZTightMuonNoIso obj pv = Except.ok b ∧
        r.userInt "isWZTightMuonNoIso" = some (boolToInt b)) ∧
      (∃ b, isWZLooseMuon obj pv = Except.ok b ∧
        r.userInt "isWZLooseMuon" = some (boolToInt b)) ∧
      (∃ b, isWZLooseMuonNoIso obj pv = Except.ok b ∧
        r.userInt "isWZLooseMuonNoIso" = some (boolToInt b)) ∧
      r.userInt "isSoftMuon" = some (boolToInt (obj.isSoftMuon pv)) ∧
      (∃ b, isSoftMuonICHEP obj pv = Except.ok b ∧
        r.userInt "isSoftMuonICHEP" = some (boolToInt b)) ∧
      r.userInt "isHighPtMuon" = some (boolToInt (obj.isHighPtMuon pv)) ∧
      r.userFloat "segmentCompatibility" = some obj.segmentCompatibility ∧
      r.userInt "isGoodMuon" = some (boolToInt obj.isGoodMuonTMOneStationTight) ∧
      r.userInt "highPurityTrack" = some (boolToInt t.qualityHighPurity)) ∧
    ((obj.isGlobalMuon = true → ∃ g, obj.globalTrack = some g) →
      ∃ r, embedIds obj pv = Except.ok r) := by
  constructor
  · intro r hr
    obtain ⟨bM, bWM, bWT, bTN, bWL, bLN, bS, hM, hWM, hWT, hTN, hWL, hLN, hS, rfl⟩ :=
      embedIds_ok_inv obj pv r hr
    refine ⟨rfl, rfl, ?_, rfl, ⟨bM, hM, rfl⟩, ⟨bWM, hWM, rfl⟩, ⟨bWT, hWT, rfl⟩, ⟨bTN, hTN, rfl⟩,
      ⟨bWL, hWL, rfl⟩, ⟨bLN, hLN, rfl⟩, rfl, ⟨bS, hS, rfl⟩, rfl, rfl, rfl, ?_⟩
    · intro kv hkv
      simp only [recordOf, hin, List.mem_cons, List.mem_singleton, List.not_mem_nil,
        or_false] at hkv
      rcases hkv with h | h | h | h | h | h | h | h | h | h | h | h <;>
        (subst h; exact boolToInt_cases _)
    · rw [recordOf_highPurityTrack, hin]
  · intro hgl
    cases hglob : obj.isGlobalMuon with
    | false =>
      obtain ⟨_, _, _, _, _, _, _, h⟩ :=
        embedIds_of_tracks obj pv t t hin (fun h => by rw [hglob] at h; cases h)
      exact ⟨_, h⟩
    | true =>
      obtain ⟨g, hg⟩ := hgl hglob
      obtain ⟨_, _, _, _, _, _, _, h⟩ := embedIds_of_tracks obj pv t g hin (fun _ => hg)
      exact ⟨_, h⟩

/-- An instance of C11: the record of `sampleMuon` at the origin exists; it
holds `isWZTightMuon = 1` and `highPurityTrack = 1`. -/
theorem embedIds_entries_witness :
    ∃ r, embedIds sampleMuon origin = Except.ok r ∧
      r.userInt "isWZTightMuon" = some 1 ∧ r.userInt "highPurityTrack" = some 1 ∧
      r.userFloat "segmentCompatibility" = some 0.5 := by
  have hT : isWZTightMuon sampleMuon origin = Except.ok true := by
    simp [isWZTightMuon, isWZTightMuonNoIso, sampleMuon, sampleTrack, origin, Fp.div, Fp.lt,
      abs_lt]
    norm_num
  obtain ⟨r, hr⟩ := (embedIds_entries sampleMuon origin sampleTrack rfl).2
    (fun _ => ⟨sampleTrack, rfl⟩)
  have h := (embedIds_entries sampleMuon origin sampleTrack rfl).1 r hr
  obtain ⟨b, hb, hkey⟩ := h.2.2.2.2.2.2.1
  rw [hT] at hb
  cases hb
  exact ⟨r, hr, hkey, h.2.2.2.2.2.2.2.2.2.2.2.2.2.2.2, h.2.2.2.2.2.2.2.2.2.2.2.2.2.1⟩

/-! ## The ICHEP soft predicate -/

/-- C12: for a candidate with an inner track, `isSoftMuonICHEP` returns the spec's
`isGoodMuonOneStationTight ∧ trackerLayersWithMeasurement > 5 ∧
pixelLayersWithMeasurement > 0 ∧ |dxy(v)| < 0.3 ∧ |dz(v)| < 20`, the thresholds
being the IEEE doubles `0.3` and `20`.  The double `0.3` lies below 3/10: a true
flag has `|dxy(v)| < 3/10`, the flag is false at `|dxy(v)|` equal to the double
`0.3`, and outside the interval from the double `0.3` to 3/10 the comparison
with the double and the one with 3/10 decide equally. -/
theorem isSoftMuonICHEP_eq_spec (recoMu : Muon) (pv : Vertex) (t : Track)
    (hin : recoMu.innerTrack = some t) :
    isSoftMuonICHEP recoMu pv =
      Except.ok (Spec.isSoftICHEP recoMu.isGoodMuonTMOneStationTight
        t.trackerLayersWithMeasurement t.pixelLayersWithMeasurement
        (t.dxy pv.position) (t.dz pv.position)) ∧
    (isSoftMuonICHEP recoMu pv = Except.ok true ↔
      recoMu.isGoodMuonTMOneStationTight = true ∧ t.trackerLayersWithMeasurement > 5 ∧
      t.pixelLayersWithMeasurement > 0 ∧ abs (t.dxy pv.position) < double_0_3 ∧
      abs (t.dz pv.position) < 20) ∧
    double_0_3 < 3 / 10 ∧
    (isSoftMuonICHEP recoMu pv = Except.ok true → abs (t.dxy pv.position) < 3 / 10) ∧
    (abs (t.dxy pv.position) = double_0_3 → isSoftMuonICHEP recoMu pv = Except.ok false) ∧
    (abs (t.dxy pv.position) < double_0_3 ∨ 3 / 10 ≤ abs (t.dxy pv.position) →
      (isSoftMuonICHEP recoMu pv = Except.ok true ↔
        recoMu.isGoodMuonTMOneStationTight = true ∧ t.trackerLayersWithMeasurement > 5 ∧
        t.pixelLayersWithMeasurement > 0 ∧ abs (t.dxy pv.position) < 3 / 10 ∧
        abs (t.dz pv.position) < 20)) := by
  have h := isSoftMuonICHEP_of_track recoMu pv t hin
  have hd : double_0_3 < 3 / 10 := by
    unfold double_0_3
    norm_num
  have hiff : isSoftMuonICHEP recoMu pv = Except.ok true ↔
      recoMu.isGoodMuonTMOneStationTight = true ∧ t.trackerLayersWithMeasurement > 5 ∧
      t.pixelLayersWithMeasurement > 0 ∧ abs (t.dxy pv.position) < double_0_3 ∧
      abs (t.dz pv.position) < 20 := by
    rw [h]
    simp only [Except.ok.injEq, Bool.and_eq_true, decide_eq_true_eq]
    tauto
  refine ⟨?_, hiff, hd, ?_, ?_, ?_⟩
  · rw [h, Spec.isSoftICHEP]
    norm_num
  · intro htrue
    exact lt_trans (hiff.1 htrue).2.2.2.1 hd
  · intro heq
    rw [h]
    have hnot : ¬ abs (t.dxy pv.position) < double_0_3 := by
      rw [heq]
      exact lt_irrefl _
    simp only [hnot, decide_False, Bool.and_false, Bool.false_and]
  · intro hout
    rw [hiff]
    constructor
    · rintro ⟨h1, h2, h3, h4, h5⟩
      exact ⟨h1, h2, h3, lt_trans h4 hd, h5⟩
    · rintro ⟨h1, h2, h3, h4, h5⟩
      rcases hout with hlt | hge
      · exact ⟨h1, h2, h3, hlt, h5⟩
      · exact absurd h4 (not_lt_of_ge hge)

/-- Instances of C12: `sampleMuon` is soft at the origin and is not at a vertex
from which its inner track is displaced; a candidate whose `dxy` is the double
`0.3` is not soft. -/
theorem isSoftMuonICHEP_eq_spec_witness :
    isSoftMuonICHEP sampleMuon origin = Except.ok true ∧
    isSoftMuonICHEP sampleMuon displaced = Except.ok false ∧
    isSoftMuonICHEP softBoundaryMuon origin = Except.ok false := by
  have h1 := (isSoftMuonICHEP_eq_spec sampleMuon origin sampleTrack rfl).1
  have h2 := (isSoftMuonICHEP_eq_spec sampleMuon displaced sampleTrack rfl).1
  have h3 := (isSoftMuonICHEP_eq_spec softBoundaryMuon origin softBoundaryTrack rfl).2.2.2.2.1
  refine ⟨?_, ?_, ?_⟩
  · rw [h1]
    simp [Spec.isSoftICHEP, sampleMuon, sampleTrack, origin, abs_lt, double_0_3]
    norm_num
  · rw [h2]
    simp [Spec.isSoftICHEP, sampleMuon, sampleTrack, displaced, abs_lt, double_0_3]
    norm_num
  · apply h3
    simp only [softBoundaryTrack]
    exact abs_of_pos (by unfold double_0_3; norm_num)

/-! ## The loose tier and the asymmetry of the tiers -/

/-- C13: for a candidate with `pt > 0` and an inner track,
`isWZLooseMuonNoIso = isMediumMuonICHEP ∧ |dxy(v)| < 0.02 ∧ |dz(v)| < 0.1 ∧
trackIso/pt < 0.4` (a failure of `isMediumMuonICHEP` is the failure of the flag);
the loose tiers do not read the base tight flag; some candidate is
`isWZMediumMuon` while neither `isMediumMuonICHEP` nor `isWZLooseMuon`, and some
candidate is `isWZLooseMuon` while neither base-tight nor `isWZMediumMuon`. -/
theorem isWZLooseMuonNoIso_eq_spec (patMu : Muon) (pv : Vertex) (t : Track)
    (hpt : 0 < patMu.pt) (hin : patMu.innerTrack = some t) :
    isWZLooseMuonNoIso patMu pv =
      (fun b => b && Spec.nearVertexTight (t.dxy pv.position) (t.dz pv.position)
        && decide (Spec.trackIsoRatio patMu.trackIso patMu.pt < 0.4))
        <$> isMediumMuonICHEP patMu ∧
    (∀ f : Vertex → Bool,
      isWZLooseMuonNoIso { patMu with isTightMuon := f } pv = isWZLooseMuonNoIso patMu pv ∧
      isWZLooseMuon { patMu with isTightMuon := f } pv = isWZLooseMuon patMu pv) ∧
    (∃ (c : Muon) (v : Vertex), isWZMediumMuon c v = Except.ok true ∧
      isMediumMuonICHEP c = Except.ok false ∧ isWZLooseMuon c v = Except.ok false) ∧
    (∃ (c : Muon) (v : Vertex), isWZLooseMuon c v = Except.ok true ∧
      c.isTightMuon v = false ∧ isWZMediumMuon c v = Except.ok false) := by
  refine ⟨?_, fun f => ⟨rfl, rfl⟩, ⟨lowSegmentMuon, origin, ?_, ?_, ?_⟩,
    ⟨notTightMuon, origin, ?_, rfl, ?_⟩⟩
  · rcases hM : isMediumMuonICHEP patMu with e | b
    · simp only [isWZLooseMuonNoIso, hM, andThen_error, map_error]
    · simp only [isWZLooseMuonNoIso, hM, hin, deref_some, pure_eq_ok, ok_bind, andThen_ok_ok,
        map_ok, Fp.lt_div_of_ne_zero _ _ _ _ (ne_of_gt hpt), Spec.nearVertexTight,
        Spec.trackIsoRatio, Bool.and_assoc]
  all_goals
    simp [isWZMediumMuon, isWZLooseMuon, isWZTightMuonNoIso, isWZLooseMuonNoIso,
      isMediumMuonICHEP, lowSegmentMuon, notTightMuon, sampleMuon, sampleTrack, origin, Fp.div,
      Fp.lt, abs_lt]
  all_goals norm_num

/-- An instance of C13: `sampleMuon` has `pt = 50` and an inner track; its
loose no-isolation flag is the conjunction of the spec. -/
theorem isWZLooseMuonNoIso_eq_spec_witness :
    0 < sampleMuon.pt ∧
    isWZLooseMuonNoIso sampleMuon origin =
      (fun b => b && Spec.nearVertexTight (sampleTrack.dxy origin.position)
        (sampleTrack.dz origin.position)
        && decide (Spec.trackIsoRatio sampleMuon.trackIso sampleMuon.pt < 0.4))
        <$> isMediumMuonICHEP sampleMuon :=
  have hpt : 0 < sampleMuon.pt := by norm_num [sampleMuon]
  ⟨hpt, (isWZLooseMuonNoIso_eq_spec sampleMuon origin sampleTrack hpt rfl).1⟩

/-! ## The frame of the augmentation -/

/-- C14: every record the loop body emits carries the input candidate unchanged,
and nothing but the twelve integer entries and the one real entry of the fixed
names; every output of `produce` carries the input candidates, in order. -/
theorem augmentation_frame (pv : Vertex) :
    (∀ (obj : Muon) (r : AugmentedMuon), embedIds obj pv = Except.ok r →
      r.muon = obj ∧ r.userInts.map Prod.fst = userIntKeys ∧
      r.userFloats.map Prod.fst = userFloatKeys) ∧
    (∀ (collection : List Muon) (vs : List Vertex) (out : List AugmentedMuon),
      produce collection (pv :: vs) = Except.ok out →
      out.map AugmentedMuon.muon = collection) := by
  constructor
  · intro obj r hr
    obtain ⟨_, _, _, _, _, _, _, -, -, -, -, -, -, -, rfl⟩ := embedIds_ok_inv obj pv r hr
    exact ⟨rfl, rfl, rfl⟩
  · intro collection vs out h
    obtain ⟨rs, hout, hall⟩ := (produceLoop_ok_iff pv collection [] out).1 h
    simp only [List.nil_append] at hout
    subst hout
    exact map_muon_of_forall₂ pv collection _ hall

/-- An instance of C14: the record of `sampleMuon` exists and carries `sampleMuon`. -/
theorem augmentation_frame_witness :
    ∃ r, embedIds sampleMuon origin = Except.ok r ∧ r.muon = sampleMuon ∧ r.muon.pt = 50 := by
  obtain ⟨_, _, _, _, _, _, _, h⟩ :=
    embedIds_of_tracks sampleMuon origin sampleTrack sampleTrack rfl (fun _ => rfl)
  have hf := ((augmentation_frame origin).1 sampleMuon _ h).1
  exact ⟨_, h, hf, by rw [hf]; rfl⟩

/-! ## The guards of the track accesses -/

/-- C15: when `isLooseMuon`, `isTightMuon(pv)` and `isGoodMuon(TMOneStationTight)`
are false (and the global track is present whenever `isGlobalMuon`), none of
`isMediumMuonICHEP`, `isSoftMuonICHEP` and the five WZ flags reads the inner
track: each returns the same with any other inner-track reference, present or
null; the seven flags are false, also on the candidate without its inner track;
and when `isGlobalMuon` is false no flag reads the global track. -/
theorem guards_false_no_inner_track_read (obj : Muon) (pv : Vertex)
    (hloose : obj.isLooseMuon = false) (htight : obj.isTightMuon pv = false)
    (hgood : obj.isGoodMuonTMOneStationTight = false)
    (hgl : obj.isGlobalMuon = true → ∃ g, obj.globalTrack = some g) :
    (∀ track : Option Track,
      isMediumMuonICHEP (withInnerTrack obj track) = isMediumMuonICHEP obj ∧
      isSoftMuonICHEP (withInnerTrack obj track) pv = isSoftMuonICHEP obj pv ∧
      isWZTightMuonNoIso (withInnerTrack obj track) pv = isWZTightMuonNoIso obj pv ∧
      isWZTightMuon (withInnerTrack obj track) pv = isWZTightMuon obj pv ∧
      isWZMediumMuon (withInnerTrack obj track) pv = isWZMediumMuon obj pv ∧
      isWZLooseMuonNoIso (withInnerTrack obj track) pv = isWZLooseMuonNoIso obj pv ∧
      isWZLooseMuon (withInnerTrack obj track) pv = isWZLooseMuon obj pv) ∧
    (isMediumMuonICHEP obj = Except.ok false ∧
      isSoftMuonICHEP obj pv = Except.ok false ∧
      isWZTightMuonNoIso obj pv = Except.ok false ∧
      isWZTightMuon obj pv = Except.ok false ∧
      isWZMediumMuon obj pv = Except.ok false ∧
      isWZLooseMuonNoIso obj pv = Except.ok false ∧
      isWZLooseMuon obj pv = Except.ok false) ∧
    (isMediumMuonICHEP (withInnerTrack obj none) = Except.ok false ∧
      isSoftMuonICHEP (withInnerTrack obj none) pv = Except.ok false ∧
      isWZTightMuonNoIso (withInnerTrack obj none) pv = Except.ok false ∧
      isWZTightMuon (withInnerTrack obj none) pv = Except.ok false ∧
      isWZMediumMuon (withInnerTrack obj none) pv = Except.ok false ∧
      isWZLooseMuonNoIso (withInnerTrack obj none) pv = Except.ok false ∧
      isWZLooseMuon (withInnerTrack obj none) pv = Except.ok false) ∧
    (obj.isGlobalMuon = false → ∀ track : Option Track,
      isMediumMuonICHEP (withGlobalTrack obj track) = isMediumMuonICHEP obj ∧
      isWZLooseMuonNoIso (withGlobalTrack obj track) pv = isWZLooseMuonNoIso obj pv ∧
      isWZLooseMuon (withGlobalTrack obj track) pv = isWZLooseMuon obj pv) := by
  have hS : ∀ c : Muon, c.isGoodMuonTMOneStationTight = false →
      isSoftMuonICHEP c pv = Except.ok false := by
    intro c hc
    simp only [isSoftMuonICHEP, hc, pure_eq_ok, ok_bind, andThen_ok_false]
  have hTN : ∀ c : Muon, c.isTightMuon pv = false →
      isWZTightMuonNoIso c pv = Except.ok false := by
    intro c hc
    simp only [isWZTightMuonNoIso, hc, pure_eq_ok, andThen_ok_false]
  have hWT : ∀ c : Muon, c.isTightMuon pv = false →
      isWZTightMuon c pv = Except.ok false := by
    intro c hc
    rw [isWZTightMuon_eq_isoFlagAt, isoFlagAt, hTN c hc, andThen_ok_false]
  have hWM : ∀ c : Muon, c.isTightMuon pv = false →
      isWZMediumMuon c pv = Except.ok false := by
    intro c hc
    rw [isWZMediumMuon_eq_isoFlagAt, isoFlagAt, hTN c hc, andThen_ok_false]
  have hMval := isMediumMuonICHEP_of_not_loose obj hloose
  have hM : isMediumMuonICHEP obj = Except.ok false := by
    rw [hMval]
    split_ifs with h
    · rw [Bool.and_eq_true] at h
      obtain ⟨g, hg⟩ := hgl h.1
      rw [hg] at h
      exact absurd h.2 (by simp)
    · rfl
  have hL := isWZLooseMuonNoIso_of_medium obj pv _ (Or.inl rfl) hM
  have hall : ∀ track : Option Track,
      isMediumMuonICHEP (withInnerTrack obj track) = Except.ok false ∧
      isSoftMuonICHEP (withInnerTrack obj track) pv = Except.ok false ∧
      isWZTightMuonNoIso (withInnerTrack obj track) pv = Except.ok false ∧
      isWZTightMuon (withInnerTrack obj track) pv = Except.ok false ∧
      isWZMediumMuon (withInnerTrack obj track) pv = Except.ok false ∧
      isWZLooseMuonNoIso (withInnerTrack obj track) pv = Except.ok false ∧
      isWZLooseMuon (withInnerTrack obj track) pv = Except.ok false := by
    intro track
    have hM₂ : isMediumMuonICHEP (withInnerTrack obj track) = Except.ok false := by
      have heq : isMediumMuonICHEP (withInnerTrack obj track) = isMediumMuonICHEP obj := by
        rw [hMval, isMediumMuonICHEP_of_not_loose (withInnerTrack obj track) hloose]
        rfl
      rw [heq, hM]
    have hL₂ := isWZLooseMuonNoIso_of_medium (withInnerTrack obj track) pv _ (Or.inl rfl) hM₂
    exact ⟨hM₂, hS _ hgood, hTN _ htight, hWT _ htight, hWM _ htight, hL₂.1, hL₂.2⟩
  refine ⟨?_, ⟨hM, hS obj hgood, hTN obj htight, hWT obj htight, hWM obj htight, hL.1, hL.2⟩,
    hall none, ?_⟩
  · intro track
    obtain ⟨h1, h2, h3, h4, h5, h6, h7⟩ := hall track
    exact ⟨by rw [h1, hM], by rw [h2, hS obj hgood], by rw [h3, hTN obj htight],
      by rw [h4, hWT obj htight], by rw [h5, hWM obj htight], by rw [h6, hL.1],
      by rw [h7, hL.2]⟩
  · intro hglob track
    have hM₂ : isMediumMuonICHEP (withGlobalTrack obj track) = Except.ok false := by
      rw [isMediumMuonICHEP_of_not_loose (withGlobalTrack obj track) hloose]
      simp [withGlobalTrack, hglob]
    have hL₂ := isWZLooseMuonNoIso_of_medium (withGlobalTrack obj track) pv _ (Or.inl rfl) hM₂
    exact ⟨by rw [hM, hM₂], by rw [hL.1, hL₂.1], by rw [hL.2, hL₂.2]⟩

/-- An instance of C15: a candidate without tracks and without base flags; the
seven flags are false, and no evaluation fails. -/
theorem guards_false_no_inner_track_read_witness :
    standaloneMuon.innerTrack = none ∧
    isMediumMuonICHEP standaloneMuon = Except.ok false ∧
    isSoftMuonICHEP standaloneMuon origin = Except.ok false ∧
    isWZTightMuonNoIso standaloneMuon origin = Except.ok false ∧
    isWZTightMuon standaloneMuon origin = Except.ok false ∧
    isWZMediumMuon standaloneMuon origin = Except.ok false ∧
    isWZLooseMuonNoIso standaloneMuon origin = Except.ok false ∧
    isWZLooseMuon standaloneMuon origin = Except.ok false :=
  ⟨rfl, (guards_false_no_inner_track_read standaloneMuon origin rfl rfl rfl
    (fun hg => by simp [standaloneMuon] at hg)).2.1⟩

/-! ## The medium and the loose tier -/

/-- C16: for a candidate with `pt > 0` and an inner track, if `isWZMediumMuon` and
`isMediumMuonICHEP` are true and `trackIso/pt < 0.4`, then `isWZLooseMuon` is
true. -/
theorem isWZMediumMuon_imp_isWZLooseMuon (patMu : Muon) (pv : Vertex) (t : Track)
    (hpt : 0 < patMu.pt) (hin : patMu.innerTrack = some t)
    (hWM : isWZMediumMuon patMu pv = Except.ok true)
    (hM : isMediumMuonICHEP patMu = Except.ok true)
    (hiso : patMu.trackIso / patMu.pt < 0.4) :
    isWZLooseMuon patMu pv = Except.ok true := by
  rw [isWZMediumMuon_eq_isoFlagAt, isoFlagAt, andThen_eq_ok_true,
    isWZTightMuonNoIso_of_track patMu pv t hin] at hWM
  obtain ⟨hTN, hlt⟩ := hWM
  simp only [Except.ok.injEq, Bool.and_eq_true, decide_eq_true_eq, pure_eq_ok] at hTN hlt
  have hmono : Fp.lt (muIso patMu) 0.4 = true :=
    Fp.lt_mono (muIso patMu) 0.40 0.4 (by norm_num) hlt
  have hLN : isWZLooseMuonNoIso patMu pv = Except.ok true := by
    simp only [isWZLooseMuonNoIso, hM, hin, deref_some, pure_eq_ok, ok_bind, andThen_ok_true,
      Fp.lt_div_of_ne_zero _ _ _ _ (ne_of_gt hpt), hTN.1.2, hTN.2, hiso, decide_True]
  rw [isWZLooseMuon_eq_isoFlagAt, isoFlagAt, hLN, andThen_ok_true, pure_eq_ok, hmono]

/-- An instance of C16: `sampleMuon` passes the medium tier, the ICHEP medium
predicate and the track-isolation cut, hence the loose tier. -/
theorem isWZMediumMuon_imp_isWZLooseMuon_witness :
    isWZMediumMuon sampleMuon origin = Except.ok true ∧
    isMediumMuonICHEP sampleMuon = Except.ok true ∧
    isWZLooseMuon sampleMuon origin = Except.ok true := by
  have hWM : isWZMediumMuon sampleMuon origin = Except.ok true := by
    simp [isWZMediumMuon, isWZTightMuonNoIso, sampleMuon, sampleTrack, origin, Fp.div, Fp.lt,
      abs_lt]
    norm_num
  have hM : isMediumMuonICHEP sampleMuon = Except.ok true := by
    simp [isMediumMuonICHEP, sampleMuon, sampleTrack]
    norm_num
  exact ⟨hWM, hM, isWZMediumMuon_imp_isWZLooseMuon sampleMuon origin sampleTrack
    (by norm_num [sampleMuon]) rfl hWM hM (by norm_num [sampleMuon])⟩

/-! ## The threshold of the ICHEP medium predicate -/

/-- C17: for a loose candidate whose inner track has `validFraction > 0.49` (and
which has a global track when `isGlobalMuon`), `segmentCompatibility > 0.451` makes
`isMediumMuonICHEP` true and `segmentCompatibility ≤ 0.303` makes it false, whatever
the global-fit inputs are; and replacing the global-fit inputs by ones for which
`goodGlob` holds keeps a true `isMediumMuonICHEP` true. -/
theorem isMediumMuonICHEP_threshold (recoMu : Muon) (t g : Track)
    (hloose : recoMu.isLooseMuon = true) (hin : recoMu.innerTrack = some t)
    (hvf : t.validFraction > 0.49)
    (hgl : recoMu.isGlobalMuon = true → recoMu.globalTrack = some g) :
    (recoMu.segmentCompatibility > 0.451 → isMediumMuonICHEP recoMu = Except.ok true) ∧
    (recoMu.segmentCompatibility ≤ 0.303 → isMediumMuonICHEP recoMu = Except.ok false) ∧
    (∀ (g₂ : Track) (q₂ : MuonQuality),
      g₂.normalizedChi2 < 3 → q₂.chi2LocalPosition < 12 → q₂.trkKink < 20 →
      isMediumMuonICHEP recoMu = Except.ok true →
      isMediumMuonICHEP (withGlobalFit recoMu true (some g₂) q₂) = Except.ok true) := by
  have hval := isMediumMuonICHEP_of_tracks recoMu t g hin hgl
  refine ⟨?_, ?_, ?_⟩
  · intro hseg
    rw [isMediumMuonICHEP_true_iff recoMu g hgl]
    refine ⟨hloose, ⟨t, hin, hvf⟩, ?_⟩
    split_ifs
    · exact lt_trans (by norm_num) hseg
    · exact hseg
  · intro hseg
    rw [hval]
    have hnot : ¬ recoMu.segmentCompatibility >
        (if (recoMu.isGlobalMuon && decide (g.normalizedChi2 < 3)
            && decide (recoMu.combinedQuality.chi2LocalPosition < 12)
            && decide (recoMu.combinedQuality.trkKink < 20)) = true
          then (0.303 : ℚ) else 0.451) := by
      split_ifs
      · exact not_lt_of_ge hseg
      · exact not_lt_of_ge (le_trans hseg (by norm_num))
    simp only [hnot, decide_False, Bool.and_false]
  · intro g₂ q₂ h1 h2 h3 hM
    rw [isMediumMuonICHEP_true_iff recoMu g hgl] at hM
    obtain ⟨-, -, hseg⟩ := hM
    rw [isMediumMuonICHEP_true_iff (withGlobalFit recoMu true (some g₂) q₂) g₂ (fun _ => rfl)]
    refine ⟨hloose, ⟨t, hin, hvf⟩, ?_⟩
    have hgood : Spec.goodGlob true g₂.normalizedChi2 q₂.chi2LocalPosition q₂.trkKink = true := by
      simp [Spec.goodGlob, h1, h2, h3]
    simp only [withGlobalFit, hgood, if_true]
    split_ifs at hseg
    · exact hseg
    · exact lt_trans (by norm_num) hseg

/-- Instances of C17: `sampleMuon` has `segmentCompatibility = 0.5 > 0.451` and is
medium; `lowSegmentMuon` has `segmentCompatibility = 0.2 ≤ 0.303` and is not. -/
theorem isMediumMuonICHEP_threshold_witness :
    isMediumMuonICHEP sampleMuon = Except.ok true ∧
    isMediumMuonICHEP lowSegmentMuon = Except.ok false :=
  ⟨(isMediumMuonICHEP_threshold sampleMuon sampleTrack sampleTrack rfl rfl
      (by norm_num [sampleTrack]) (fun _ => rfl)).1 (by norm_num [sampleMuon]),
   (isMediumMuonICHEP_threshold lowSegmentMuon sampleTrack sampleTrack rfl rfl
      (by norm_num [sampleTrack]) (fun _ => rfl)).2.1
      (by norm_num [lowSegmentMuon, sampleMuon])⟩

/-! ## Bounds of the isolation ratio -/

/-- C18: for a candidate with `pt > 0` and a non-negative charged-hadron sum, the
value `muIso` of the three isolation flags is the exact ratio `R`, with
`R ≥ sumChargedHadronPt/pt ≥ 0`, `R = sumChargedHadronPt/pt` whenever
`sumNeutralHadronEt + sumPhotonEt ≤ 0.5·sumPUPt`, and `R` does not increase when
`sumPUPt` grows; hence a true `isWZTightMuon`, `isWZMediumMuon` or `isWZLooseMuon`
stays true when `sumPUPt` alone grows. -/
theorem isolation_ratio_bounds (patMu : Muon) (pv : Vertex) (hpt : 0 < patMu.pt)
    (hch : 0 ≤ patMu.pfIsolationR04.sumChargedHadronPt) :
    muIso patMu = Fp.finite (Spec.ratioOf patMu) ∧
    patMu.pfIsolationR04.sumChargedHadronPt / patMu.pt ≤ Spec.ratioOf patMu ∧
    0 ≤ patMu.pfIsolationR04.sumChargedHadronPt / patMu.pt ∧
    (patMu.pfIsolationR04.sumNeutralHadronEt + patMu.pfIsolationR04.sumPhotonEt
        ≤ 0.5 * patMu.pfIsolationR04.sumPUPt →
      Spec.ratioOf patMu = patMu.pfIsolationR04.sumChargedHadronPt / patMu.pt) ∧
    (∀ pu : ℚ, patMu.pfIsolationR04.sumPUPt ≤ pu →
      Spec.ratioOf (withSumPUPt patMu pu) ≤ Spec.ratioOf patMu ∧
      (isWZTightMuon patMu pv = Except.ok true →
        isWZTightMuon (withSumPUPt patMu pu) pv = Except.ok true) ∧
      (isWZMediumMuon patMu pv = Except.ok true →
        isWZMediumMuon (withSumPUPt patMu pu) pv = Except.ok true) ∧
      (isWZLooseMuon patMu pv = Except.ok true →
        isWZLooseMuon (withSumPUPt patMu pu) pv = Except.ok true)) := by
  refine ⟨muIso_of_ne_zero patMu (ne_of_gt hpt), Spec.le_ratioOf patMu hpt,
    div_nonneg hch (le_of_lt hpt), ?_, ?_⟩
  · intro h
    unfold Spec.ratioOf Spec.pfIsolationRatio04
    rw [max_eq_left (by linarith), add_zero]
  · intro pu hpu
    have hle := Spec.ratioOf_withSumPUPt_le patMu pu hpt hpu
    refine ⟨hle, ?_, ?_, ?_⟩
    · intro h
      rw [isWZTightMuon_eq_isoFlagAt] at h ⊢
      exact isoFlagAt_of_ratio_le _ _ patMu _ pv hpt hpt rfl hle h
    · intro h
      rw [isWZMediumMuon_eq_isoFlagAt] at h ⊢
      exact isoFlagAt_of_ratio_le _ _ patMu _ pv hpt hpt rfl hle h
    · intro h
      rw [isWZLooseMuon_eq_isoFlagAt] at h ⊢
      exact isoFlagAt_of_ratio_le _ _ patMu _ pv hpt hpt rfl hle h

/-- An instance of C18: `sampleMuon` (`pt = 50`, sums `2, 3, 1, 4`) is tight, and
stays tight with `sumPUPt = 10`, where the ratio is `2/50`. -/
theorem isolation_ratio_bounds_witness :
    isWZTightMuon sampleMuon origin = Except.ok true ∧
    isWZTightMuon (withSumPUPt sampleMuon 10) origin = Except.ok true ∧
    Spec.ratioOf (withSumPUPt sampleMuon 10) = 2 / 50 := by
  have hpt : 0 < sampleMuon.pt := by norm_num [sampleMuon]
  have hch : 0 ≤ sampleMuon.pfIsolationR04.sumChargedHadronPt := by norm_num [sampleMuon]
  have h : isWZTightMuon sampleMuon origin = Except.ok true := by
    simp [isWZTightMuon, isWZTightMuonNoIso, sampleMuon, sampleTrack, origin, Fp.div, Fp.lt,
      abs_lt]
    norm_num
  have hb := isolation_ratio_bounds sampleMuon origin hpt hch
  refine ⟨h, (hb.2.2.2.2 10 (by norm_num [sampleMuon])).2.1 h, ?_⟩
  have hb₂ := isolation_ratio_bounds (withSumPUPt sampleMuon 10) origin hpt hch
  rw [hb₂.2.2.2.1 (by norm_num [withSumPUPt, sampleMuon])]
  norm_num [withSumPUPt, sampleMuon]

end MuonIdEmbedder
